import Mathlib

set_option maxRecDepth 40000

/-
Verification of the Franck-Hertz data-analysis pipeline.

The development shallowly embeds the three observed revisions of the
pipeline (script.js, part_000, part_001).  Modelling conventions:

* JavaScript numbers are modelled as exact rationals (ℚ); the smoothing
  kernel and the uncertainty estimator, which genuinely use `exp` and
  `sqrt`, are modelled over ℝ.
* `parseFloat` applied to a digit/dot field is modelled as `Option ℚ`,
  `none` standing for the JavaScript `NaN` (a field made only of dots).
* The R² computation divides by `ssTot`, which can be zero; JavaScript
  then produces `NaN`.  The embedding returns `Option ℚ` for R²,
  `none` standing for the non-finite JavaScript result.
* Loops that push at most one element per index are embedded as
  `filterMap` over the index range; `while` walks are embedded as
  structural recursions (with an explicit fuel argument that provably
  dominates the loop bound where the measure is not structural).
-/

namespace FranckHertz

/-- A parsed measurement sample: `{voltage, current}` (script.js line 43). -/
structure Sample where
  voltage : ℚ
  current : ℚ
deriving DecidableEq

/-- A detected peak: copies of the sample fields plus the source index
(`peakIndex`) and, in the derivative variant only, the measured width. -/
structure Peak where
  voltage : ℚ
  current : ℚ
  peakIndex : ℕ
  width : Option ℕ
deriving DecidableEq

def dfltSample : Sample := ⟨0, 0⟩

def dfltPeak : Peak := ⟨0, 0, 0, none⟩

/-- `data[i]` for sample lists; out-of-range access never happens on the
paths the code takes, the default only totalises the function. -/
def atS (data : List Sample) (i : ℕ) : Sample := data.getD i dfltSample

/-- `data[i].current`. -/
def cur (data : List Sample) (i : ℕ) : ℚ := (atS data i).current

/-- `Math.max(...data.map(d => d.current))` (script.js line 79): the
maximum current, folded from the head for a non-empty list.  On the
empty list JavaScript gives `-Infinity`; the model returns 0, and no
caller reaches that case (the scan loops are then empty). -/
def maxCurrent (data : List Sample) : ℚ :=
  match data.map Sample.current with
  | [] => 0
  | c :: cs => cs.foldl max c

/-! ## Parser (script.js lines 35-55, identical in all three revisions) -/

/-- The character class `[\d.]` of the row regex. -/
def isNumChar (c : Char) : Bool := c.isDigit || c = '.'

/-- The character class `\s` of the row regex (whitespace that can occur
inside a line once the text has been split on newlines). -/
def isWsChar (c : Char) : Bool :=
  c = ' ' || c = '\t' || c = '\r' || c = Char.ofNat 11 || c = Char.ofNat 12

/-- The row regex `^\|\s*([\d.]+)\s*\|\s*([\d.]+)\s*\|` (script.js
line 41).  Because the classes `\|`, `\s` and `[\d.]` are pairwise
disjoint, the greedy regex match is equivalent to this deterministic
scan; on success the two captured fields are returned. -/
def matchRow (line : List Char) : Option (List Char × List Char) :=
  match line with
  | '|' :: r0 =>
    let r1 := r0.dropWhile isWsChar
    let f1 := r1.takeWhile isNumChar
    if f1.isEmpty then none else
    match (r1.dropWhile isNumChar).dropWhile isWsChar with
    | '|' :: r2 =>
      let r3 := r2.dropWhile isWsChar
      let f2 := r3.takeWhile isNumChar
      if f2.isEmpty then none else
      match (r3.dropWhile isNumChar).dropWhile isWsChar with
      | '|' :: _ => some (f1, f2)
      | _ => none
    | _ => none
  | _ => none

/-- Value of a digit string. -/
def digitsVal (ds : List Char) : ℕ := ds.foldl (fun acc c => 10 * acc + (c.toNat - 48)) 0

/-- JavaScript `parseFloat` restricted to strings over `[\d.]` (the only
strings it is applied to): longest valid decimal prefix, `none` = `NaN`
(possible only for all-dot fields). -/
def parseFloat (s : List Char) : Option ℚ :=
  let ip := s.takeWhile Char.isDigit
  match s.dropWhile Char.isDigit with
  | '.' :: r =>
    let fp := r.takeWhile Char.isDigit
    if ip.isEmpty && fp.isEmpty then none
    else some ((digitsVal ip : ℚ) + (digitsVal fp : ℚ) / (10 ^ fp.length))
  | _ => if ip.isEmpty then none else some ((digitsVal ip : ℚ))

/-- A sample as pushed by the parser: `parseFloat` of the two captured
fields (script.js lines 43-46); a field of dots yields `NaN` = `none`. -/
structure RawSample where
  voltage : Option ℚ
  current : Option ℚ
deriving DecidableEq

inductive ParseError where
  | emptyInput
deriving DecidableEq

instance {ε α : Type} [DecidableEq ε] [DecidableEq α] : DecidableEq (Except ε α) := fun x y =>
  match x, y with
  | .error a, .error b => decidable_of_iff (a = b) (by simp)
  | .error _, .ok _ => .isFalse (by simp)
  | .ok _, .error _ => .isFalse (by simp)
  | .ok a, .ok b => decidable_of_iff (a = b) (by simp)

/-- One iteration of the parser loop: match the line, push a sample. -/
def parseLine (line : List Char) : Option RawSample :=
  (matchRow line).map (fun m => ⟨parseFloat m.1, parseFloat m.2⟩)

/-- `parseData` on the already-split lines (script.js lines 35-55):
collect a sample per matching line, fail when none matched. -/
def parseLines (lines : List (List Char)) : Except ParseError (List RawSample) :=
  let data := lines.filterMap parseLine
  if data.isEmpty then .error .emptyInput else .ok data

/-- `text.split('\n')`: split into lines at every newline; the empty
text gives one empty line, a trailing newline a final empty line, as in
JavaScript. -/
def splitLines : List Char → List (List Char)
  | [] => [[]]
  | c :: r =>
    if c = '\n' then [] :: splitLines r
    else
      match splitLines r with
      | l :: ls => (c :: l) :: ls
      | [] => [[c]]

/-- `parseData` on the raw text blob: `text.split('\n')` then the loop. -/
def parseData (text : String) : Except ParseError (List RawSample) :=
  parseLines (splitLines text.data)

/-! ## Peak detector, revision part_000: fixed strict sliding window -/

namespace P0

def windowSize : ℕ := 5

/-- One iteration of the part_000 scan (lines 92-121): `i` is a peak when
its current strictly exceeds every current within `windowSize` positions
on both sides (the source rejects on `<=`) and exceeds 10% of the global
maximum. -/
def candidate (data : List Sample) (i : ℕ) : Option Peak :=
  if (∀ j ∈ List.range windowSize, cur data (i - (j + 1)) < cur data i) ∧
      (∀ j ∈ List.range windowSize, cur data (i + (j + 1)) < cur data i) ∧
      (1 / 10 : ℚ) * maxCurrent data < cur data i then
    some ⟨(atS data i).voltage, cur data i, i, none⟩
  else none

/-- part_000 `findPeaks` (lines 88-124): scan `i` from `windowSize` to
`data.length - windowSize - 1`. -/
def findPeaks (data : List Sample) : List Peak :=
  (List.range' windowSize (data.length - 2 * windowSize)).filterMap (candidate data)

end P0

/-! ## Peak detector, revision script.js: adaptive relaxed window with fallback -/

namespace SJ

/-- `Math.min(10, Math.max(3, Math.floor(data.length / 20)))` (line 80). -/
def windowSize (data : List Sample) : ℕ := min 10 (max 3 (data.length / 20))

/-- One iteration of the primary pass (lines 82-111): `i` is rejected
when some window neighbour exceeds it by more than the 5% tolerance
(`data[i].current < data[i±j].current * 0.95`), or when its current is
at most 5% of the global maximum. -/
def primaryCandidate (data : List Sample) (i : ℕ) : Option Peak :=
  if (∀ j ∈ List.range (windowSize data),
        ¬(cur data i < cur data (i - (j + 1)) * (19 / 20))) ∧
      (∀ j ∈ List.range (windowSize data),
        ¬(cur data i < cur data (i + (j + 1)) * (19 / 20))) ∧
      (1 / 20 : ℚ) * maxCurrent data < cur data i then
    some ⟨(atS data i).voltage, cur data i, i, none⟩
  else none

/-- The primary pass of script.js `findPeaks`. -/
def primaryPass (data : List Sample) : List Peak :=
  (List.range' (windowSize data) (data.length - 2 * windowSize data)).filterMap
    (primaryCandidate data)

/-- One iteration of the fallback pass (lines 120-130): immediate
neighbour comparison with the lower 3% noise floor. -/
def backupCandidate (data : List Sample) (i : ℕ) : Option Peak :=
  if cur data (i - 1) < cur data i ∧ cur data (i + 1) < cur data i ∧
      (3 / 100 : ℚ) * maxCurrent data < cur data i then
    some ⟨(atS data i).voltage, cur data i, i, none⟩
  else none

/-- The fallback pass: scan `i` from 3 to `data.length - 4`. -/
def backupPass (data : List Sample) : List Peak :=
  (List.range' 3 (data.length - 6)).filterMap (backupCandidate data)

/-- script.js `findPeaks` (lines 77-133): primary pass, then when it
yields fewer than 2 peaks the fallback pass, returning at most its first
2 candidates when even that is insufficient. -/
def findPeaks (data : List Sample) : List Peak :=
  let peaks := primaryPass data
  if 2 ≤ peaks.length then peaks
  else
    let backup := backupPass data
    if 2 ≤ backup.length then backup else backup.take 2

end SJ

/-! ## Peak detector, revision part_001: Gaussian smoothing + derivative -/

namespace P1

/-- The normalised Gaussian kernel (part_001 lines 78-90):
radius `ceil(3·sigma)`, weights `exp(-i²/(2·sigma²))` divided by their
sum; entry `m` holds the weight for offset `m - radius`. -/
noncomputable def kernel (sigma : ℝ) (radius : ℕ) : List ℝ :=
  let raw := (List.range (2 * radius + 1)).map fun (m : ℕ) =>
    Real.exp (-(((m : ℝ) - radius) ^ 2) / (2 * sigma ^ 2))
  raw.map (· / raw.sum)

/-- `gaussianSmooth` (part_001 lines 77-109): convolve the current
channel with the kernel, skipping out-of-range indices (the kernel is
not renormalised at the edges); voltages are kept. -/
noncomputable def gaussianSmooth (data : List Sample) (sigma : ℝ) : List (ℚ × ℝ) :=
  let radius : ℕ := ⌈(3 : ℝ) * sigma⌉₊
  let ker := kernel sigma radius
  (List.range data.length).map fun i =>
    ((atS data i).voltage,
      (((List.range (2 * radius + 1)).map fun (m : ℕ) =>
        let idx : ℤ := (i : ℤ) + (m : ℤ) - (radius : ℤ)
        if 0 ≤ idx ∧ idx < (data.length : ℤ) then (cur data idx.toNat : ℝ) * ker.getD m 0
        else 0).sum))

/-- `calculateDerivative` (part_001 lines 112-123): centred difference
`(y[i+1] - y[i-1]) / (x[i+1] - x[i-1])` for `i = 1 .. length-2`; entry
`k` of the result corresponds to centre index `k + 1`. -/
noncomputable def calculateDerivative (sd : List (ℚ × ℝ)) : List (ℚ × ℝ) :=
  (List.range (sd.length - 2)).map fun k =>
    ((sd.getD (k + 1) (0, 0)).1,
      ((sd.getD (k + 2) (0, 0)).2 - (sd.getD k (0, 0)).2) /
        (((sd.getD (k + 2) (0, 0)).1 : ℝ) - ((sd.getD k (0, 0)).1 : ℝ)))

/-- The left walk of the refinement (lines 147-150): move the candidate
index left while the neighbour's original current strictly exceeds it. -/
def climbLeft (data : List Sample) : ℕ → ℕ
  | 0 => 0
  | p + 1 => if cur data p > cur data (p + 1) then climbLeft data p else p + 1

/-- The right walk (lines 151-154), fuelled: `right` starts one past the
original candidate even when the left walk moved `peakIndex`; the fuel
`data.length + 1 - right` strictly dominates the number of iterations
the source loop can make, so the embedding computes the same index. -/
def walkRightAux (data : List Sample) : ℕ → ℕ → ℕ → ℕ
  | 0, p, _ => p
  | fuel + 1, p, r =>
    if r < data.length ∧ cur data r > cur data p then walkRightAux data fuel r (r + 1)
    else p

def walkRight (data : List Sample) (p r : ℕ) : ℕ :=
  walkRightAux data (data.length + 1 - r) p r

/-- Half-maximum walk to the left (lines 159-162). -/
def widthLeft (data : List Sample) (half : ℚ) : ℕ → ℕ
  | 0 => 0
  | lw + 1 => if half < cur data (lw + 1) then widthLeft data half lw else lw + 1

/-- Half-maximum walk to the right (lines 164-167), fuelled like the
right walk. -/
def widthRightAux (data : List Sample) (half : ℚ) : ℕ → ℕ → ℕ
  | 0, rw => rw
  | fuel + 1, rw =>
    if rw < data.length - 1 ∧ half < cur data rw then widthRightAux data half fuel (rw + 1)
    else rw

def widthRight (data : List Sample) (half : ℚ) (rw : ℕ) : ℕ :=
  widthRightAux data half (data.length + 1 - rw) rw

/-- Refinement and filtering of one derivative zero-crossing at
derivative index `i` (lines 141-178): walk to the local maximum of the
original signal, then accept only when the current reaches 10% of the
global maximum and the half-maximum width reaches 3 samples. -/
def refine (data : List Sample) (i : ℕ) : Option Peak :=
  let p0 := i + 1
  let pL := climbLeft data p0
  let pk := walkRight data pL (p0 + 1)
  if (1 / 10 : ℚ) * maxCurrent data ≤ cur data pk then
    let lw := widthLeft data ((1 / 2 : ℚ) * cur data pk) pk
    let rw := widthRight data ((1 / 2 : ℚ) * cur data pk) pk
    if 3 ≤ rw - lw then some ⟨(atS data pk).voltage, cur data pk, pk, some (rw - lw)⟩
    else none
  else none

open Classical in
/-- One iteration of the crossing scan (line 140): the derivative goes
from positive at `i - 1` to non-positive at `i`. -/
noncomputable def crossingCandidate (data : List Sample) (deriv : List (ℚ × ℝ))
    (i : ℕ) : Option Peak :=
  if 0 < (deriv.getD (i - 1) (0, 0)).2 ∧ (deriv.getD i (0, 0)).2 ≤ 0 then
    refine data i
  else none

/-- part_001 `findPeaks` (lines 126-184): smooth with `sigma = 2`, take
the centred derivative, and refine every index where the derivative goes
from positive to non-positive. -/
noncomputable def findPeaks (data : List Sample) : List Peak :=
  let deriv := calculateDerivative (gaussianSmooth data 2)
  (List.range' 1 (deriv.length - 2)).filterMap (crossingCandidate data deriv)

end P1

/-! ## Linear fitter (script.js lines 136-180, identical in all revisions) -/

inductive FitError where
  | insufficientPeaks
deriving DecidableEq

/-- Fit result; `rSquared = none` models the non-finite JavaScript value
produced when `ssTot = 0` (division by zero). -/
structure FitResult where
  slope : ℚ
  intercept : ℚ
  rSquared : Option ℚ
deriving DecidableEq

/-- `peaks[i].voltage`. -/
def peakV (peaks : List Peak) (i : ℕ) : ℚ := (peaks.getD i dfltPeak).voltage

/-- The slope denominator `n·sumX2 - sumX·sumX` of `linearFit`. -/
def fitDenom (peaks : List Peak) : ℚ :=
  let n := peaks.length
  (n : ℚ) * (∑ i in Finset.range n, ((i : ℚ) + 1) * ((i : ℚ) + 1)) -
    (∑ i in Finset.range n, ((i : ℚ) + 1)) * (∑ i in Finset.range n, ((i : ℚ) + 1))

/-- `linearFit` (lines 136-180): ordinary least squares of peak voltage
against 1-based rank; the loop accumulations are embedded as sums over
`Finset.range` (ℚ addition is commutative, so the order is irrelevant). -/
def linearFit (peaks : List Peak) : Except FitError FitResult :=
  if peaks.length < 2 then .error .insufficientPeaks else
  let n := peaks.length
  let sumX : ℚ := ∑ i in Finset.range n, ((i : ℚ) + 1)
  let sumY : ℚ := ∑ i in Finset.range n, peakV peaks i
  let sumXY : ℚ := ∑ i in Finset.range n, ((i : ℚ) + 1) * peakV peaks i
  let slope := ((n : ℚ) * sumXY - sumX * sumY) / fitDenom peaks
  let intercept := (sumY - slope * sumX) / n
  let meanY := sumY / n
  let ssTot := ∑ i in Finset.range n, (peakV peaks i - meanY) ^ 2
  let ssRes := ∑ i in Finset.range n, (peakV peaks i - (slope * ((i : ℚ) + 1) + intercept)) ^ 2
  .ok ⟨slope, intercept, if ssTot = 0 then none else some (1 - ssRes / ssTot)⟩

/-! ## Uncertainty estimator (script.js lines 183-225, identical in all revisions) -/

/-- Uncertainty result; the source's nested `confidenceInterval` object
is flattened into `ciLower`/`ciUpper`. -/
structure Uncertainty where
  slopeError : ℝ
  interceptError : ℝ
  ciLower : ℝ
  ciUpper : ℝ

/-- The fixed critical value `2.776` (line 215). -/
def tValue : ℚ := 2776 / 1000

/-- `calculateUncertainty` (lines 183-225).  The `data` argument is
accepted and ignored exactly as in the source.  Over ℝ the division by
`n - 2` and the square roots are total (Lean's conventions at the
degenerate point `n = 2` stand in for the non-finite JavaScript
values). -/
noncomputable def calculateUncertainty (data : List Sample) (peaks : List Peak)
    (fit : FitResult) : Option Uncertainty :=
  let _ := data
  let n := peaks.length
  if n < 2 then none else
  let sumResiduals2 : ℚ :=
    ∑ i in Finset.range n, (peakV peaks i - (fit.slope * ((i : ℚ) + 1) + fit.intercept)) ^ 2
  let s : ℝ := Real.sqrt ((sumResiduals2 : ℝ) / ((n : ℝ) - 2))
  let sumX : ℚ := ∑ i in Finset.range n, ((i : ℚ) + 1)
  let sumX2 : ℚ := ∑ i in Finset.range n, ((i : ℚ) + 1) * ((i : ℚ) + 1)
  let sxx : ℝ := (sumX2 : ℝ) - (sumX : ℝ) ^ 2 / n
  let slopeError := s / Real.sqrt sxx
  let interceptError := s * Real.sqrt ((sumX2 : ℝ) / (n * sxx))
  some ⟨slopeError, interceptError,
    (fit.slope : ℝ) - (tValue : ℝ) * slopeError,
    (fit.slope : ℝ) + (tValue : ℝ) * slopeError⟩

/-! ## Spec-side characterisations and concrete inputs -/

/-- The shape a line must have for the row regex to match: a leading
pipe, then two pipe-terminated fields, each a non-empty run over the
class `[\d.]`, each surrounded by optional whitespace.  This is the
spec's table-row pattern with the field class as the source actually
implements it (digits and dots, with no bound on the number of dots). -/
def RowShape (line : List Char) : Prop :=
  ∃ w1 f1 w2 w3 f2 w4 rest,
    line = '|' :: (w1 ++ f1 ++ w2 ++ '|' :: (w3 ++ f2 ++ w4 ++ '|' :: rest)) ∧
    (∀ c ∈ w1, isWsChar c = true) ∧ (∀ c ∈ w2, isWsChar c = true) ∧
    (∀ c ∈ w3, isWsChar c = true) ∧ (∀ c ∈ w4, isWsChar c = true) ∧
    f1 ≠ [] ∧ (∀ c ∈ f1, isNumChar c = true) ∧
    f2 ≠ [] ∧ (∀ c ∈ f2, isNumChar c = true)

/-- The matching lines of a blob, in input order. -/
def matchingLines (lines : List (List Char)) : List (List Char) :=
  lines.filter fun l => (matchRow l).isSome

/-- The sample a matching line contributes: voltage from the first
captured field, current from the second. -/
def sampleOfLine (l : List Char) : Option RawSample :=
  (matchRow l).map fun m => ⟨parseFloat m.1, parseFloat m.2⟩

/-- Lines for the parser example: two matching rows between junk. -/
def exLines6 : List (List Char) :=
  [("header junk").data, ("| 1.5 | 2 |").data, ("|---|---|").data, ("|3|4|").data]

def exSamples6 : List RawSample := [⟨some (3 / 2), some 2⟩, ⟨some 3, some 4⟩]

/-- A flat positive signal of 8 samples. -/
def flat8 : List Sample := List.replicate 8 ⟨0, 1⟩

/-- A flat zero signal of 3 samples. -/
def flat3 : List Sample := List.replicate 3 ⟨0, 0⟩

/-- A strictly increasing signal of 8 samples. -/
def mono8 : List Sample :=
  [⟨0, 100⟩, ⟨1, 101⟩, ⟨2, 102⟩, ⟨3, 103⟩, ⟨4, 104⟩, ⟨5, 105⟩, ⟨6, 106⟩, ⟨7, 107⟩]

/-- A strictly increasing signal of 12 samples. -/
def mono12 : List Sample :=
  [⟨0, 1⟩, ⟨1, 2⟩, ⟨2, 3⟩, ⟨3, 4⟩, ⟨4, 5⟩, ⟨5, 6⟩, ⟨6, 7⟩, ⟨7, 8⟩, ⟨8, 9⟩, ⟨9, 10⟩,
    ⟨10, 11⟩, ⟨11, 12⟩]

/-- A unimodal signal of 11 samples with its sharp maximum at index 5. -/
def uni11 : List Sample :=
  [⟨0, 1⟩, ⟨1, 2⟩, ⟨2, 3⟩, ⟨3, 4⟩, ⟨4, 5⟩, ⟨5, 6⟩, ⟨6, 5⟩, ⟨7, 4⟩, ⟨8, 3⟩, ⟨9, 2⟩, ⟨10, 1⟩]

/-- 19 samples driving the derivative detector to refine two distinct
zero-crossings to the same source index 5: currents climb strictly to a
plateau of the global maximum, and the zig-zag voltages give the centred
difference the sign pattern +, -, +, - on its first four entries. -/
def exC9 : List Sample :=
  [⟨0, 1⟩, ⟨10, 2⟩, ⟨1, 3⟩, ⟨9, 4⟩, ⟨2, 40⟩, ⟨8, 100⟩, ⟨1, 100⟩, ⟨7, 100⟩, ⟨0, 100⟩,
    ⟨6, 100⟩, ⟨-1, 100⟩, ⟨5, 100⟩, ⟨-2, 100⟩, ⟨6, 100⟩, ⟨-1, 100⟩, ⟨7, 100⟩, ⟨0, 100⟩,
    ⟨8, 100⟩, ⟨1, 100⟩]

/-- The peak the derivative detector finds (twice) on `exC9`. -/
def exC9Peak : Peak := ⟨8, 100, 5, some 14⟩

/-- Two peaks with voltages 1, 3 (slope 2, intercept -1). -/
def exPeaks2 : List Peak := [⟨1, 0, 0, none⟩, ⟨3, 0, 1, none⟩]

/-- Three peaks with voltages `1 + 2·rank`: an exact linear sweep. -/
def exPeaks3 : List Peak := [⟨3, 1, 0, none⟩, ⟨5, 1, 1, none⟩, ⟨7, 1, 2, none⟩]

/-- Two peaks with constant voltage `0 = 0 + 0·rank`. -/
def cexPeaks8 : List Peak := [⟨0, 0, 0, none⟩, ⟨0, 0, 1, none⟩]

/-! ## Spec-side regression formulas (section 4.3/4.4 of the spec) -/

def specSumX (n : ℕ) : ℚ := ∑ i in Finset.range n, ((i : ℚ) + 1)

def specSumX2 (n : ℕ) : ℚ := ∑ i in Finset.range n, ((i : ℚ) + 1) * ((i : ℚ) + 1)

def specSumY (peaks : List Peak) : ℚ := ∑ i : Fin peaks.length, (peaks.get i).voltage

def specSumXY (peaks : List Peak) : ℚ :=
  ∑ i : Fin peaks.length, (((i : ℕ) : ℚ) + 1) * (peaks.get i).voltage

/-- The spec's slope `(n·Σ(rank·voltage) − Σrank·Σvoltage) / (n·Σrank² − (Σrank)²)`. -/
def specSlope (peaks : List Peak) : ℚ :=
  ((peaks.length : ℚ) * specSumXY peaks - specSumX peaks.length * specSumY peaks) /
    ((peaks.length : ℚ) * specSumX2 peaks.length -
      specSumX peaks.length * specSumX peaks.length)

/-- The spec's intercept `(Σvoltage − slope·Σrank) / n`. -/
def specIntercept (peaks : List Peak) : ℚ :=
  (specSumY peaks - specSlope peaks * specSumX peaks.length) / peaks.length

def specMeanY (peaks : List Peak) : ℚ := specSumY peaks / peaks.length

def specSSTot (peaks : List Peak) : ℚ :=
  ∑ i : Fin peaks.length, ((peaks.get i).voltage - specMeanY peaks) ^ 2

def specSSRes (peaks : List Peak) : ℚ :=
  ∑ i : Fin peaks.length,
    ((peaks.get i).voltage - (specSlope peaks * (((i : ℕ) : ℚ) + 1) + specIntercept peaks)) ^ 2

/-- The spec's `R² = 1 − SSres/SStot`; `none` models the non-finite
JavaScript value arising when `SStot = 0`. -/
def specRSquared (peaks : List Peak) : Option ℚ :=
  if specSSTot peaks = 0 then none else some (1 - specSSRes peaks / specSSTot peaks)

/-- The spec's residual standard deviation `s = sqrt(Σresidual²/(n−2))`. -/
noncomputable def specResidualS (peaks : List Peak) (fit : FitResult) : ℝ :=
  Real.sqrt
    (((∑ i : Fin peaks.length,
        ((peaks.get i).voltage - (fit.slope * (((i : ℕ) : ℚ) + 1) + fit.intercept)) ^ 2 :
        ℚ) : ℝ) / ((peaks.length : ℝ) - 2))

/-- The spec's `Sxx = Σrank² − (Σrank)²/n`. -/
noncomputable def specSxx (n : ℕ) : ℝ := (specSumX2 n : ℝ) - (specSumX n : ℝ) ^ 2 / n

/-- The spec's `slopeStdErr = s / sqrt(Sxx)`. -/
noncomputable def specSlopeError (peaks : List Peak) (fit : FitResult) : ℝ :=
  specResidualS peaks fit / Real.sqrt (specSxx peaks.length)

/-- The spec's `interceptStdErr = s · sqrt(Σrank²/(n·Sxx))`. -/
noncomputable def specInterceptError (peaks : List Peak) (fit : FitResult) : ℝ :=
  specResidualS peaks fit *
    Real.sqrt ((specSumX2 peaks.length : ℝ) / (peaks.length * specSxx peaks.length))

/-! ## Helper lemmas: character classes and scans -/

theorem ws_not_num {c : Char} (h : isWsChar c = true) : isNumChar c = false := by
  simp only [isWsChar, Bool.or_eq_true, decide_eq_true_eq] at h
  rcases h with (((h | h) | h) | h) | h <;> subst h <;> decide

theorem pipe_not_ws : isWsChar '|' = false := by decide

theorem pipe_not_num : isNumChar '|' = false := by decide

theorem takeWhile_append_all {α} {p : α → Bool} {f : List α} (X : List α)
    (h : ∀ c ∈ f, p c = true) : (f ++ X).takeWhile p = f ++ X.takeWhile p := by
  induction f with
  | nil => rfl
  | cons a f ih =>
    have ha : p a = true := h a (by simp)
    simp [List.takeWhile_cons, ha, ih fun c hc => h c (by simp [hc])]

theorem dropWhile_append_all {α} {p : α → Bool} {f : List α} (X : List α)
    (h : ∀ c ∈ f, p c = true) : (f ++ X).dropWhile p = X.dropWhile p := by
  induction f with
  | nil => rfl
  | cons a f ih =>
    have ha : p a = true := h a (by simp)
    simp [List.dropWhile_cons, ha, ih fun c hc => h c (by simp [hc])]

theorem dropWhile_ws_pipe (w tail : List Char) (hw : ∀ c ∈ w, isWsChar c = true) :
    (w ++ '|' :: tail).dropWhile isWsChar = '|' :: tail := by
  rw [dropWhile_append_all _ hw]
  simp [List.dropWhile_cons, pipe_not_ws]

theorem takeWhile_num_wspipe (w tail : List Char) (hw : ∀ c ∈ w, isWsChar c = true) :
    (w ++ '|' :: tail).takeWhile isNumChar = [] := by
  cases w with
  | nil => simp [List.takeWhile_cons, pipe_not_num]
  | cons a w =>
    have := ws_not_num (hw a (by simp))
    simp [List.takeWhile_cons, this]

theorem dropWhile_num_wspipe (w tail : List Char) (hw : ∀ c ∈ w, isWsChar c = true) :
    (w ++ '|' :: tail).dropWhile isNumChar = w ++ '|' :: tail := by
  cases w with
  | nil => simp [List.dropWhile_cons, pipe_not_num]
  | cons a w =>
    have := ws_not_num (hw a (by simp))
    simp [List.dropWhile_cons, this]

/-- A line of the matching shape is accepted by `matchRow`, with the two
field runs as the captures. -/
theorem matchRow_of_shape (w1 f1 w2 w3 f2 w4 rest : List Char)
    (hw1 : ∀ c ∈ w1, isWsChar c = true) (hw2 : ∀ c ∈ w2, isWsChar c = true)
    (hw3 : ∀ c ∈ w3, isWsChar c = true) (hw4 : ∀ c ∈ w4, isWsChar c = true)
    (hf1 : f1 ≠ []) (hn1 : ∀ c ∈ f1, isNumChar c = true)
    (hf2 : f2 ≠ []) (hn2 : ∀ c ∈ f2, isNumChar c = true) :
    matchRow ('|' :: (w1 ++ f1 ++ w2 ++ '|' :: (w3 ++ f2 ++ w4 ++ '|' :: rest))) =
      some (f1, f2) := by
  have assoc1 : w1 ++ f1 ++ w2 ++ '|' :: (w3 ++ f2 ++ w4 ++ '|' :: rest) =
      w1 ++ (f1 ++ (w2 ++ '|' :: (w3 ++ (f2 ++ (w4 ++ '|' :: rest))))) := by
    simp [List.append_assoc]
  rw [assoc1]
  cases f1 with
  | nil => exact absurd rfl hf1
  | cons a1 t1 =>
  cases f2 with
  | nil => exact absurd rfl hf2
  | cons a2 t2 =>
  have ha1 : isWsChar a1 = false := by
    cases h : isWsChar a1
    · rfl
    · have := ws_not_num h
      rw [hn1 a1 (by simp)] at this
      exact absurd this (by simp)
  have ha2 : isWsChar a2 = false := by
    cases h : isWsChar a2
    · rfl
    · have := ws_not_num h
      rw [hn2 a2 (by simp)] at this
      exact absurd this (by simp)
  have hd1 : (w1 ++ ((a1 :: t1) ++ (w2 ++ '|' :: (w3 ++ ((a2 :: t2) ++
      (w4 ++ '|' :: rest)))))).dropWhile isWsChar =
      (a1 :: t1) ++ (w2 ++ '|' :: (w3 ++ ((a2 :: t2) ++ (w4 ++ '|' :: rest)))) := by
    rw [dropWhile_append_all _ hw1]
    simp [List.dropWhile_cons, ha1]
  have ht1 : ((a1 :: t1) ++ (w2 ++ '|' :: (w3 ++ ((a2 :: t2) ++
      (w4 ++ '|' :: rest))))).takeWhile isNumChar = a1 :: t1 := by
    rw [takeWhile_append_all _ hn1, takeWhile_num_wspipe _ _ hw2, List.append_nil]
  have hd2 : ((a1 :: t1) ++ (w2 ++ '|' :: (w3 ++ ((a2 :: t2) ++
      (w4 ++ '|' :: rest))))).dropWhile isNumChar =
      w2 ++ '|' :: (w3 ++ ((a2 :: t2) ++ (w4 ++ '|' :: rest))) := by
    rw [dropWhile_append_all _ hn1, dropWhile_num_wspipe _ _ hw2]
  have hd3 : (w2 ++ '|' :: (w3 ++ ((a2 :: t2) ++ (w4 ++ '|' :: rest)))).dropWhile
      isWsChar = '|' :: (w3 ++ ((a2 :: t2) ++ (w4 ++ '|' :: rest))) :=
    dropWhile_ws_pipe _ _ hw2
  have hd4 : (w3 ++ ((a2 :: t2) ++ (w4 ++ '|' :: rest))).dropWhile isWsChar =
      (a2 :: t2) ++ (w4 ++ '|' :: rest) := by
    rw [dropWhile_append_all _ hw3]
    simp [List.dropWhile_cons, ha2]
  have ht2 : ((a2 :: t2) ++ (w4 ++ '|' :: rest)).takeWhile isNumChar = a2 :: t2 := by
    rw [takeWhile_append_all _ hn2, takeWhile_num_wspipe _ _ hw4, List.append_nil]
  have hd5 : ((a2 :: t2) ++ (w4 ++ '|' :: rest)).dropWhile isNumChar =
      w4 ++ '|' :: rest := by
    rw [dropWhile_append_all _ hn2, dropWhile_num_wspipe _ _ hw4]
  have hd6 : (w4 ++ '|' :: rest).dropWhile isWsChar = '|' :: rest :=
    dropWhile_ws_pipe _ _ hw4
  simp only [matchRow, hd1, ht1, hd2, hd3, hd4, ht2, hd5, hd6, List.isEmpty_cons]
  simp

/-! ## Claim C1 -/

/-- Claim C1, counterexample: the line whose first numeric field is
`1.2.3` (two decimal points) does produce a sample; `parseFloat` reads
the prefix `1.2`. -/
theorem c1_counterexample :
    parseData ("| 1.2.3 | 5 |") = .ok [⟨some (6 / 5), some 5⟩] := by
  have h1 : splitLines (("| 1.2.3 | 5 |").data) = [("| 1.2.3 | 5 |").data] := by decide
  have h2 : parseLine (("| 1.2.3 | 5 |").data) =
      some ⟨parseFloat ['1', '.', '2', '.', '3'], parseFloat ['5']⟩ := by
    have hrow : matchRow (("| 1.2.3 | 5 |").data) =
        some (['1', '.', '2', '.', '3'], ['5']) := by decide
    rw [parseLine, hrow]
    rfl
  have h3 : parseFloat ['1', '.', '2', '.', '3'] = some (6 / 5) := by
    rw [show parseFloat ['1', '.', '2', '.', '3'] =
      some ((digitsVal ['1'] : ℚ) + (digitsVal ['2'] : ℚ) / 10 ^ (1 : ℕ)) from rfl]
    norm_num [digitsVal, show ('1').toNat - 48 = 1 from by decide,
      show ('2').toNat - 48 = 2 from by decide]
  have h4 : parseFloat ['5'] = some 5 := by
    rw [show parseFloat ['5'] = some ((digitsVal ['5'] : ℚ)) from rfl]
    norm_num [digitsVal, show ('5').toNat - 48 = 5 from by decide]
  rw [parseData, h1, parseLines]
  simp [List.filterMap_cons, h2, h3, h4]


theorem tw_dw {α : Type} (p : α → Bool) (l : List α) :
    l.takeWhile p ++ l.dropWhile p = l :=
  List.takeWhile_append_dropWhile p l

/-- Claim C1, amended: `parseData` produces a sample from a line exactly
when the line starts with a pipe and its first two pipe-delimited fields
are non-empty runs over digits-and-dot, with optional surrounding
whitespace — the field class puts no bound on the number of decimal
points, so fields such as `1.2.3` are accepted. -/
theorem c1_field_pattern (line : List Char) :
    (parseLine line).isSome = true ↔ RowShape line := by
  constructor
  · intro hs
    have hm : ∃ m, matchRow line = some m := by
      cases h : matchRow line with
      | none => rw [parseLine, h] at hs; simp at hs
      | some m => exact ⟨m, rfl⟩
    obtain ⟨m, hm⟩ := hm
    unfold matchRow at hm
    split at hm
    case h_2 => simp at hm
    case h_1 x r0 =>
    clear x
    simp only at hm
    split at hm
    case isTrue => simp at hm
    case isFalse hf1 =>
    split at hm
    case h_2 => simp at hm
    case h_1 r2 heq2 =>
    split at hm
    case isTrue => simp at hm
    case isFalse hf2 =>
    split at hm
    case h_2 => simp at hm
    case h_1 tail heq4 =>
    refine ⟨r0.takeWhile isWsChar, (r0.dropWhile isWsChar).takeWhile isNumChar,
      ((r0.dropWhile isWsChar).dropWhile isNumChar).takeWhile isWsChar,
      r2.takeWhile isWsChar, (r2.dropWhile isWsChar).takeWhile isNumChar,
      ((r2.dropWhile isWsChar).dropWhile isNumChar).takeWhile isWsChar,
      tail, ?_, fun c hc => List.mem_takeWhile_imp hc, fun c hc => List.mem_takeWhile_imp hc,
      fun c hc => List.mem_takeWhile_imp hc, fun c hc => List.mem_takeWhile_imp hc,
      ?_, fun c hc => List.mem_takeWhile_imp hc,
      ?_, fun c hc => List.mem_takeWhile_imp hc⟩
    · have hr2 : r2 = r2.takeWhile isWsChar ++ ((r2.dropWhile isWsChar).takeWhile isNumChar
          ++ (((r2.dropWhile isWsChar).dropWhile isNumChar).takeWhile isWsChar
          ++ '|' :: tail)) := by
        conv_lhs => rw [← tw_dw isWsChar r2]
        conv_lhs => rw [← tw_dw isNumChar (r2.dropWhile isWsChar)]
        conv_lhs => rw [← tw_dw isWsChar ((r2.dropWhile isWsChar).dropWhile isNumChar)]
        rw [heq4]
      have hr0 : r0 = r0.takeWhile isWsChar ++ ((r0.dropWhile isWsChar).takeWhile isNumChar
          ++ (((r0.dropWhile isWsChar).dropWhile isNumChar).takeWhile isWsChar
          ++ '|' :: r2)) := by
        conv_lhs => rw [← tw_dw isWsChar r0]
        conv_lhs => rw [← tw_dw isNumChar (r0.dropWhile isWsChar)]
        conv_lhs => rw [← tw_dw isWsChar ((r0.dropWhile isWsChar).dropWhile isNumChar)]
        rw [heq2]
      conv_lhs => rw [hr0]
      conv_lhs => rw [hr2]
      simp [List.append_assoc]
    · intro h
      rw [h] at hf1
      simp at hf1
    · intro h
      rw [h] at hf2
      simp at hf2
  · rintro ⟨w1, f1, w2, w3, f2, w4, rest, hline, hw1, hw2, hw3, hw4, hf1, hn1, hf2, hn2⟩
    subst hline
    rw [parseLine, matchRow_of_shape w1 f1 w2 w3 f2 w4 rest hw1 hw2 hw3 hw4 hf1 hn1 hf2 hn2]
    rfl

/-! ## Claim C6 -/

theorem parseLine_eq_sampleOfLine (l : List Char) : parseLine l = sampleOfLine l := rfl

theorem parseLine_isSome (l : List Char) :
    (parseLine l).isSome = (matchRow l).isSome := by
  simp [parseLine]

theorem filterMap_eq_filterMap_filter {α β} (f : α → Option β) (l : List α) :
    l.filterMap f = (l.filter fun a => (f a).isSome).filterMap f := by
  induction l with
  | nil => rfl
  | cons a l ih =>
    cases h : f a with
    | none => simp [List.filterMap_cons, List.filter_cons, h, ih]
    | some b => simp [List.filterMap_cons, List.filter_cons, h, ih]

theorem filterMap_all_length {α β} (f : α → Option β) (l : List α)
    (h : ∀ a ∈ l, (f a).isSome = true) : (l.filterMap f).length = l.length := by
  induction l with
  | nil => rfl
  | cons a l ih =>
    cases hfa : f a with
    | none => exact absurd (h a (by simp)) (by simp [hfa])
    | some b =>
      simp [List.filterMap_cons, hfa, ih fun a ha => h a (by simp [ha])]

theorem filterMap_all_get? {α β} (f : α → Option β) (l : List α)
    (h : ∀ a ∈ l, (f a).isSome = true) (i : ℕ) :
    (l.filterMap f).get? i = (l.get? i).bind f := by
  induction l generalizing i with
  | nil => simp
  | cons a l ih =>
    cases hfa : f a with
    | none => exact absurd (h a (by simp)) (by simp [hfa])
    | some b =>
      cases i with
      | zero => simp [List.filterMap_cons, hfa]
      | succ i =>
        simpa [List.filterMap_cons, hfa, List.get?_eq_getElem?] using
          ih (fun a ha => h a (by simp [ha])) i

/-- Claim C6: `parseData` raises `EmptyInputError` exactly when no line
matches the row pattern; otherwise it returns one sample per matching
line, in input order, the i-th sample built from the i-th matching
line's fields (voltage first, current second). -/
theorem c6_row_extraction (lines : List (List Char)) :
    (parseLines lines = .error .emptyInput ↔ ∀ l ∈ lines, matchRow l = none) ∧
    ∀ samples, parseLines lines = .ok samples →
      samples.length = (matchingLines lines).length ∧
      ∀ i : ℕ, samples.get? i = ((matchingLines lines).get? i).bind sampleOfLine := by
  have hnone : ∀ l : List Char, parseLine l = none ↔ matchRow l = none := by
    intro l
    simp [parseLine]
  have hall : ∀ l ∈ matchingLines lines, (parseLine l).isSome = true := by
    intro l hl
    have := List.of_mem_filter hl
    rw [parseLine_isSome]
    exact this
  have hfil : lines.filterMap parseLine = (matchingLines lines).filterMap parseLine := by
    rw [filterMap_eq_filterMap_filter parseLine lines]
    have : (fun l => (parseLine l).isSome) = fun l : List Char => (matchRow l).isSome := by
      funext l
      exact parseLine_isSome l
    rw [matchingLines, ← this]
  constructor
  · rw [parseLines]
    by_cases hempty : (lines.filterMap parseLine).isEmpty = true
    · rw [if_pos hempty]
      refine iff_of_true rfl ?_
      intro l hl
      rw [← hnone l]
      rw [List.isEmpty_iff] at hempty
      exact List.filterMap_eq_nil_iff.mp hempty l hl
    · rw [if_neg hempty]
      refine iff_of_false (by simp) ?_
      intro h
      exact hempty (by
        rw [List.isEmpty_iff, List.filterMap_eq_nil_iff]
        intro l hl
        rw [hnone l]
        exact h l hl)
  · intro samples hok
    have hsamples : samples = lines.filterMap parseLine := by
      rw [parseLines] at hok
      by_cases hempty : (lines.filterMap parseLine).isEmpty = true
      · rw [if_pos hempty] at hok
        exact absurd hok (by simp)
      · rw [if_neg hempty] at hok
        exact (Except.ok.inj hok).symm
    subst hsamples
    rw [hfil]
    refine ⟨filterMap_all_length parseLine _ hall, fun i => ?_⟩
    rw [filterMap_all_get? parseLine _ hall i]
    rfl

/-- Witness for C6 at a concrete four-line blob with two matching rows. -/
theorem c6_witness :
    parseLines exLines6 = .ok exSamples6 ∧
    exSamples6.length = (matchingLines exLines6).length ∧
    exSamples6.get? 0 = ((matchingLines exLines6).get? 0).bind sampleOfLine := by
  have e1 : parseLine (("header junk").data) = none := by decide
  have e5 : parseLine (("|---|---|").data) = none := by decide
  have e2 : parseLine (("| 1.5 | 2 |").data) =
      some ⟨parseFloat ['1', '.', '5'], parseFloat ['2']⟩ := by
    have hrow : matchRow (("| 1.5 | 2 |").data) = some (['1', '.', '5'], ['2']) := by decide
    rw [parseLine, hrow]
    rfl
  have e3 : parseFloat ['1', '.', '5'] = some (3 / 2) := by
    rw [show parseFloat ['1', '.', '5'] =
      some ((digitsVal ['1'] : ℚ) + (digitsVal ['5'] : ℚ) / 10 ^ (1 : ℕ)) from rfl]
    norm_num [digitsVal, show ('1').toNat - 48 = 1 from by decide,
      show ('5').toNat - 48 = 5 from by decide]
  have e4 : parseFloat ['2'] = some 2 := by
    rw [show parseFloat ['2'] = some ((digitsVal ['2'] : ℚ)) from rfl]
    norm_num [digitsVal, show ('2').toNat - 48 = 2 from by decide]
  have e6 : parseLine (("|3|4|").data) =
      some ⟨parseFloat ['3'], parseFloat ['4']⟩ := by
    have hrow : matchRow (("|3|4|").data) = some (['3'], ['4']) := by decide
    rw [parseLine, hrow]
    rfl
  have e7 : parseFloat ['3'] = some 3 := by
    rw [show parseFloat ['3'] = some ((digitsVal ['3'] : ℚ)) from rfl]
    norm_num [digitsVal, show ('3').toNat - 48 = 3 from by decide]
  have e8 : parseFloat ['4'] = some 4 := by
    rw [show parseFloat ['4'] = some ((digitsVal ['4'] : ℚ)) from rfl]
    norm_num [digitsVal, show ('4').toNat - 48 = 4 from by decide]
  have hok : parseLines exLines6 = .ok exSamples6 := by
    rw [parseLines, exLines6]
    simp [List.filterMap_cons, e1, e2, e5, e6, e3, e4, e7, e8, exSamples6]
  exact ⟨hok, ((c6_row_extraction exLines6).2 exSamples6 hok).1,
    ((c6_row_extraction exLines6).2 exSamples6 hok).2 0⟩

/-! ## Helper lemmas: detectors -/

theorem foldl_max_const (c : ℚ) (l : List ℚ) (h : ∀ x ∈ l, x = c) : l.foldl max c = c := by
  induction l with
  | nil => rfl
  | cons x xs ih =>
    rw [List.foldl_cons, h x (by simp), max_self]
    exact ih fun y hy => h y (by simp [hy])

theorem maxCurrent_flat (data : List Sample) (c : ℚ) (hne : data ≠ [])
    (hflat : ∀ s ∈ data, s.current = c) : maxCurrent data = c := by
  cases data with
  | nil => exact absurd rfl hne
  | cons a l =>
    show (l.map Sample.current).foldl max a.current = c
    rw [hflat a (by simp)]
    refine foldl_max_const c _ fun x hx => ?_
    obtain ⟨s, hs, rfl⟩ := List.mem_map.mp hx
    exact hflat s (by simp [hs])

theorem cur_eq_get (data : List Sample) (i : ℕ) (h : i < data.length) :
    cur data i = (data.get ⟨i, h⟩).current := by
  simp [cur, atS, List.getD, List.getElem?_eq_getElem h, List.get_eq_getElem]

theorem flat_cur (data : List Sample) (c : ℚ) (hflat : ∀ s ∈ data, s.current = c)
    (i : ℕ) (h : i < data.length) : cur data i = c := by
  rw [cur_eq_get data i h]
  exact hflat _ (data.get_mem _ _)

theorem mem_range'_bounds {s n i : ℕ} (h : i ∈ List.range' s n) : s ≤ i ∧ i < s + n := by
  rw [List.mem_range'_1] at h
  exact h

theorem chain'_lt_cur (data : List Sample)
    (h : List.Chain' (fun a b : Sample => a.current < b.current) data)
    (k : ℕ) (hk : k + 1 < data.length) : cur data k < cur data (k + 1) := by
  rw [cur_eq_get data k (by omega), cur_eq_get data (k + 1) hk]
  exact List.chain'_iff_get.mp h k (by omega)

theorem chain'_gt_cur (data : List Sample)
    (h : List.Chain' (fun a b : Sample => a.current > b.current) data)
    (k : ℕ) (hk : k + 1 < data.length) : cur data (k + 1) < cur data k := by
  rw [cur_eq_get data (k + 1) hk, cur_eq_get data k (by omega)]
  exact List.chain'_iff_get.mp h k (by omega)

theorem climbLeft_le (data : List Sample) : ∀ p, P1.climbLeft data p ≤ p := by
  intro p
  induction p with
  | zero => exact le_refl 0
  | succ p ih =>
    rw [P1.climbLeft]
    split
    · exact le_trans ih (by omega)
    · exact le_refl _

theorem walkRightAux_lt (data : List Sample) (fuel : ℕ) :
    ∀ p r, p < data.length → P1.walkRightAux data fuel p r < data.length := by
  induction fuel with
  | zero => intro p r hp; simpa [P1.walkRightAux] using hp
  | succ fuel ih =>
    intro p r hp
    rw [P1.walkRightAux]
    split
    case isTrue h => exact ih r (r + 1) h.1
    case isFalse => exact hp

theorem walkRight_lt (data : List Sample) (p r : ℕ) (hp : p < data.length) :
    P1.walkRight data p r < data.length := by
  rw [P1.walkRight]
  exact walkRightAux_lt data _ p r hp

theorem widthLeft_stop (data : List Sample) (half : ℚ) (p : ℕ)
    (h : ¬half < cur data p) : P1.widthLeft data half p = p := by
  cases p with
  | zero => rfl
  | succ p => rw [P1.widthLeft, if_neg h]

theorem widthRightAux_stop (data : List Sample) (half : ℚ) (fuel r : ℕ)
    (h : ¬half < cur data r) : P1.widthRightAux data half fuel r = r := by
  cases fuel with
  | zero => rfl
  | succ fuel => exact if_neg fun hc => h hc.2

theorem widthRight_stop (data : List Sample) (half : ℚ) (r : ℕ)
    (h : ¬half < cur data r) : P1.widthRight data half r = r := by
  rw [P1.widthRight]
  exact widthRightAux_stop data half _ r h

theorem p1_deriv_length (data : List Sample) :
    (P1.calculateDerivative (P1.gaussianSmooth data 2)).length = data.length - 2 := by
  simp [P1.calculateDerivative, P1.gaussianSmooth]

/-! ## Claim C5 -/

/-- Claim C5, counterexample: on the strictly increasing 8-sample signal
with currents 100..107, the relaxed 5%-tolerance primary pass returns
peaks (every candidate is within 5% of all its window neighbours). -/
theorem c5_counterexample :
    List.Chain' (fun a b : Sample => a.current < b.current) mono8 ∧
      SJ.primaryPass mono8 ≠ [] := by
  have e0 : cur mono8 0 = 100 := by decide
  have e1 : cur mono8 1 = 101 := by decide
  have e2 : cur mono8 2 = 102 := by decide
  have e3 : cur mono8 3 = 103 := by decide
  have e4 : cur mono8 4 = 104 := by decide
  have e5 : cur mono8 5 = 105 := by decide
  have e6 : cur mono8 6 = 106 := by decide
  refine ⟨by norm_num [mono8, List.chain'_cons], fun h => ?_⟩
  rw [SJ.primaryPass, List.filterMap_eq_nil_iff] at h
  have h3 := h 3 (by
    rw [show SJ.windowSize mono8 = 3 from by decide,
      show mono8.length - 2 * 3 = 2 from by decide]
    decide)
  have hcond : (∀ j ∈ List.range (SJ.windowSize mono8),
        ¬(cur mono8 3 < cur mono8 (3 - (j + 1)) * (19 / 20))) ∧
      (∀ j ∈ List.range (SJ.windowSize mono8),
        ¬(cur mono8 3 < cur mono8 (3 + (j + 1)) * (19 / 20))) ∧
      (1 / 20 : ℚ) * maxCurrent mono8 < cur mono8 3 := by
    rw [show SJ.windowSize mono8 = 3 from by decide]
    refine ⟨?_, ?_, ?_⟩
    · intro j hj
      rw [List.mem_range] at hj
      interval_cases j <;> norm_num [e0, e1, e2, e3]
    · intro j hj
      rw [List.mem_range] at hj
      interval_cases j <;> norm_num [e3, e4, e5, e6]
    · rw [show maxCurrent mono8 = 107 from by decide, e3]
      norm_num
  rw [SJ.primaryCandidate, if_pos hcond] at h3
  exact absurd h3 (by simp)

/-- Claim C5, amended: on a strictly monotonic signal the strict
fixed-window detector (part_000, whose whole run is the primary pass)
returns zero peaks; the relaxed 5%-tolerance primary pass does not share
this property (it rejects a candidate only when a window neighbour
exceeds it by more than the tolerance). -/
theorem c5_fixed_monotonic (data : List Sample)
    (hmono : List.Chain' (fun a b : Sample => a.current < b.current) data ∨
      List.Chain' (fun a b : Sample => a.current > b.current) data) :
    P0.findPeaks data = [] := by
  rw [P0.findPeaks, List.filterMap_eq_nil_iff]
  intro i hi
  obtain ⟨hlo, hhi⟩ := mem_range'_bounds hi
  rw [P0.windowSize] at hlo hhi
  rw [P0.candidate, if_neg]
  rintro ⟨hleft, hright, -⟩
  rcases hmono with hinc | hdec
  · have h0 := hright 0 (by rw [P0.windowSize]; simp)
    have := chain'_lt_cur data hinc i (by omega)
    simp only [Nat.zero_add] at h0
    exact absurd h0 (by rw [show i + (0 + 1) = i + 1 from by omega]; exact not_lt.mpr (le_of_lt this))
  · have h0 := hleft 0 (by rw [P0.windowSize]; simp)
    have := chain'_gt_cur data hdec (i - 1) (by omega)
    rw [show i - 1 + 1 = i from by omega] at this
    exact absurd h0 (by rw [show i - (0 + 1) = i - 1 from by omega]; exact not_lt.mpr (le_of_lt this))

/-- Witness for C5 on a strictly increasing 12-sample signal. -/
theorem c5_witness : P0.findPeaks mono12 = [] :=
  c5_fixed_monotonic mono12 (Or.inl (by norm_num [mono12, List.chain'_cons]))

/-! ## Claim C2 -/

theorem p0_flat (data : List Sample) (c : ℚ) (hflat : ∀ s ∈ data, s.current = c) :
    P0.findPeaks data = [] := by
  rw [P0.findPeaks, List.filterMap_eq_nil_iff]
  intro i hi
  obtain ⟨hlo, hhi⟩ := mem_range'_bounds hi
  rw [P0.windowSize] at hlo hhi
  rw [P0.candidate, if_neg]
  rintro ⟨hleft, -, -⟩
  have h0 := hleft 0 (by rw [P0.windowSize]; simp)
  rw [flat_cur data c hflat (i - (0 + 1)) (by omega),
    flat_cur data c hflat i (by omega)] at h0
  exact lt_irrefl c h0

theorem sj_flat_nonpos (data : List Sample) (c : ℚ) (hne : data ≠ [])
    (hflat : ∀ s ∈ data, s.current = c) (hc : c ≤ 0) : SJ.findPeaks data = [] := by
  have hmaxc : maxCurrent data = c := maxCurrent_flat data c hne hflat
  have hpp : SJ.primaryPass data = [] := by
    rw [SJ.primaryPass, List.filterMap_eq_nil_iff]
    intro i hi
    obtain ⟨hlo, hhi⟩ := mem_range'_bounds hi
    have hw3 : 3 ≤ SJ.windowSize data := by
      rw [SJ.windowSize]
      have : 2 * SJ.windowSize data < data.length := by omega
      rw [SJ.windowSize] at this
      omega
    have hilen : i < data.length := by
      have : 2 * SJ.windowSize data < data.length := by omega
      omega
    rw [SJ.primaryCandidate, if_neg]
    rintro ⟨hleft, -, hthr⟩
    rcases lt_or_eq_of_le hc with hlt | heq
    · have h0 := hleft 0 (by simp [List.mem_range]; omega)
      rw [flat_cur data c hflat i hilen,
        flat_cur data c hflat (i - (0 + 1)) (by omega)] at h0
      exact h0 (by nlinarith)
    · rw [hmaxc, flat_cur data c hflat i hilen, heq] at hthr
      norm_num at hthr
  have hbp : SJ.backupPass data = [] := by
    rw [SJ.backupPass, List.filterMap_eq_nil_iff]
    intro i hi
    obtain ⟨hlo, hhi⟩ := mem_range'_bounds hi
    rw [SJ.backupCandidate, if_neg]
    rintro ⟨h1, -, -⟩
    rw [flat_cur data c hflat (i - 1) (by omega),
      flat_cur data c hflat i (by omega)] at h1
    exact lt_irrefl c h1
  rw [SJ.findPeaks]
  rw [hpp, hbp]
  norm_num

theorem p1_flat_nonpos (data : List Sample) (c : ℚ) (hne : data ≠ [])
    (hflat : ∀ s ∈ data, s.current = c) (hc : c ≤ 0) : P1.findPeaks data = [] := by
  have hmaxc : maxCurrent data = c := maxCurrent_flat data c hne hflat
  rw [P1.findPeaks, List.filterMap_eq_nil_iff]
  intro i hi
  obtain ⟨hlo, hhi⟩ := mem_range'_bounds hi
  rw [p1_deriv_length data] at hhi
  have hip1 : i + 1 < data.length := by omega
  rw [P1.crossingCandidate]
  split
  case isTrue =>
    simp only [P1.refine]
    have hpk : P1.walkRight data (P1.climbLeft data (i + 1)) (i + 1 + 1) < data.length :=
      walkRight_lt data _ _ (lt_of_le_of_lt (climbLeft_le data (i + 1)) hip1)
    have hcur : cur data (P1.walkRight data (P1.climbLeft data (i + 1)) (i + 1 + 1)) = c :=
      flat_cur data c hflat _ hpk
    rcases lt_or_eq_of_le hc with hlt | heq
    · rw [if_neg (by rw [hmaxc, hcur]; intro hcontra; nlinarith)]
    · have hmax0 : maxCurrent data = 0 := by rw [hmaxc, heq]
      have hcur0 : cur data (P1.walkRight data (P1.climbLeft data (i + 1)) (i + 1 + 1)) = 0 := by
        rw [hcur, heq]
      rw [if_pos (by rw [hmax0, hcur0]; norm_num)]
      rw [widthLeft_stop data _ _ (by rw [hcur0]; norm_num),
        widthRight_stop data _ _ (by rw [hcur0]; norm_num)]
      rw [if_neg (by omega)]
  case isFalse => rfl

/-- Claim C2, counterexample: on a flat signal of 8 samples with common
current 1, the relaxed adaptive detector (script.js) returns peaks — on
a flat positive signal every interior candidate is within the 5%
tolerance of its neighbours and above the noise floor. -/
theorem c2_counterexample :
    flat8 = List.replicate 8 ⟨0, 1⟩ ∧ SJ.findPeaks flat8 ≠ [] := by
  have ecur : ∀ k, k < 8 → cur flat8 k = 1 := by decide
  have hcand : ∀ i, 3 ≤ i → i + 3 < 8 → SJ.primaryCandidate flat8 i =
      some ⟨(atS flat8 i).voltage, cur flat8 i, i, none⟩ := by
    intro i h3 h5
    rw [SJ.primaryCandidate, if_pos]
    refine ⟨?_, ?_, ?_⟩
    · intro j hj
      rw [show SJ.windowSize flat8 = 3 from by decide, List.mem_range] at hj
      rw [ecur i (by omega), ecur (i - (j + 1)) (by omega)]
      norm_num
    · intro j hj
      rw [show SJ.windowSize flat8 = 3 from by decide, List.mem_range] at hj
      rw [ecur i (by omega), ecur (i + (j + 1)) (by omega)]
      norm_num
    · rw [show maxCurrent flat8 = 1 from by decide, ecur i (by omega)]
      norm_num
  have hpp : SJ.primaryPass flat8 = [⟨(atS flat8 3).voltage, cur flat8 3, 3, none⟩,
      ⟨(atS flat8 4).voltage, cur flat8 4, 4, none⟩] := by
    rw [SJ.primaryPass,
      show List.range' (SJ.windowSize flat8) (flat8.length - 2 * SJ.windowSize flat8) =
        [3, 4] from by decide]
    rw [List.filterMap_cons, hcand 3 (by omega) (by omega)]
    rw [List.filterMap_cons, hcand 4 (by omega) (by omega), List.filterMap_nil]
  refine ⟨rfl, ?_⟩
  rw [SJ.findPeaks, hpp]
  simp

/-- Claim C2, amended: no detector raises on a flat signal (all are
total functions), and the strict fixed-window detector returns zero
peaks on every flat signal; but the relaxed adaptive detector and the
Gaussian-derivative detector are only guaranteed to return zero peaks
when the common current is non-positive — on a flat positive signal the
relaxed detector returns every interior candidate as a peak. -/
theorem c2_flat_detectors (data : List Sample) (c : ℚ) (hne : data ≠ [])
    (hflat : ∀ s ∈ data, s.current = c) :
    P0.findPeaks data = [] ∧
      (c ≤ 0 → SJ.findPeaks data = [] ∧ P1.findPeaks data = []) :=
  ⟨p0_flat data c hflat, fun hc =>
    ⟨sj_flat_nonpos data c hne hflat hc, p1_flat_nonpos data c hne hflat hc⟩⟩

/-- Witness for C2 on the flat zero signal of 3 samples. -/
theorem c2_witness :
    P0.findPeaks flat3 = [] ∧ SJ.findPeaks flat3 = [] ∧ P1.findPeaks flat3 = [] := by
  have h := c2_flat_detectors flat3 0 (by decide) (by decide)
  exact ⟨h.1, (h.2 (by norm_num)).1, (h.2 (by norm_num)).2⟩

/-! ## Claim C10 -/

theorem p0_mem_faithful (data : List Sample) (p : Peak) (h : p ∈ P0.findPeaks data) :
    p.peakIndex < data.length ∧ p.voltage = (atS data p.peakIndex).voltage ∧
      p.current = (atS data p.peakIndex).current := by
  rw [P0.findPeaks] at h
  obtain ⟨i, hi, hc⟩ := List.mem_filterMap.mp h
  obtain ⟨hlo, hhi⟩ := mem_range'_bounds hi
  rw [P0.windowSize] at hlo hhi
  rw [P0.candidate] at hc
  split at hc
  case isTrue =>
    cases hc
    refine ⟨?_, rfl, rfl⟩
    show i < data.length
    omega
  case isFalse => exact absurd hc (by simp)

theorem sj_primary_mem_faithful (data : List Sample) (p : Peak)
    (h : p ∈ SJ.primaryPass data) :
    p.peakIndex < data.length ∧ p.voltage = (atS data p.peakIndex).voltage ∧
      p.current = (atS data p.peakIndex).current := by
  rw [SJ.primaryPass] at h
  obtain ⟨i, hi, hc⟩ := List.mem_filterMap.mp h
  obtain ⟨hlo, hhi⟩ := mem_range'_bounds hi
  rw [SJ.primaryCandidate] at hc
  split at hc
  case isTrue =>
    cases hc
    refine ⟨?_, rfl, rfl⟩
    show i < data.length
    omega
  case isFalse => exact absurd hc (by simp)

theorem sj_backup_mem_faithful (data : List Sample) (p : Peak)
    (h : p ∈ SJ.backupPass data) :
    p.peakIndex < data.length ∧ p.voltage = (atS data p.peakIndex).voltage ∧
      p.current = (atS data p.peakIndex).current := by
  rw [SJ.backupPass] at h
  obtain ⟨i, hi, hc⟩ := List.mem_filterMap.mp h
  obtain ⟨hlo, hhi⟩ := mem_range'_bounds hi
  rw [SJ.backupCandidate] at hc
  split at hc
  case isTrue =>
    cases hc
    refine ⟨?_, rfl, rfl⟩
    show i < data.length
    omega
  case isFalse => exact absurd hc (by simp)

theorem sj_mem_faithful (data : List Sample) (p : Peak) (h : p ∈ SJ.findPeaks data) :
    p.peakIndex < data.length ∧ p.voltage = (atS data p.peakIndex).voltage ∧
      p.current = (atS data p.peakIndex).current := by
  simp only [SJ.findPeaks] at h
  split at h
  · exact sj_primary_mem_faithful data p h
  · split at h
    · exact sj_backup_mem_faithful data p h
    · exact sj_backup_mem_faithful data p (List.take_subset 2 _ h)

theorem p1_mem_faithful (data : List Sample) (p : Peak) (h : p ∈ P1.findPeaks data) :
    p.peakIndex < data.length ∧ p.voltage = (atS data p.peakIndex).voltage ∧
      p.current = (atS data p.peakIndex).current := by
  rw [P1.findPeaks] at h
  obtain ⟨i, hi, hc⟩ := List.mem_filterMap.mp h
  obtain ⟨hlo, hhi⟩ := mem_range'_bounds hi
  rw [p1_deriv_length data] at hhi
  have hip1 : i + 1 < data.length := by omega
  rw [P1.crossingCandidate] at hc
  split at hc
  case isTrue =>
    simp only [P1.refine] at hc
    have hpk : P1.walkRight data (P1.climbLeft data (i + 1)) (i + 1 + 1) < data.length :=
      walkRight_lt data _ _ (lt_of_le_of_lt (climbLeft_le data (i + 1)) hip1)
    split at hc
    case isTrue =>
      split at hc
      case isTrue =>
        cases hc
        exact ⟨hpk, rfl, rfl⟩
      case isFalse => exact absurd hc (by simp)

    case isFalse => exact absurd hc (by simp)
  case isFalse => exact absurd hc (by simp)

/-- Claim C10: every peak any detector returns is a faithful copy of an
input sample — its `peakIndex` is in range and its voltage and current
are those of the original (unsmoothed) sample at that index. -/
theorem c10_peaks_faithful (data : List Sample) (p : Peak)
    (hmem : p ∈ P0.findPeaks data ++ (SJ.findPeaks data ++ P1.findPeaks data)) :
    p.peakIndex < data.length ∧ p.voltage = (atS data p.peakIndex).voltage ∧
      p.current = (atS data p.peakIndex).current := by
  rcases List.mem_append.mp hmem with h | h
  · exact p0_mem_faithful data p h
  · rcases List.mem_append.mp h with h | h
    · exact sj_mem_faithful data p h
    · exact p1_mem_faithful data p h

/-- Witness for C10: the peak the strict detector finds on the unimodal
11-sample signal is a faithful copy of sample 5. -/
theorem c10_witness :
    (⟨5, 6, 5, none⟩ : Peak).peakIndex < uni11.length ∧
      (⟨5, 6, 5, none⟩ : Peak).voltage = (atS uni11 (⟨5, 6, 5, none⟩ : Peak).peakIndex).voltage ∧
      (⟨5, 6, 5, none⟩ : Peak).current = (atS uni11 (⟨5, 6, 5, none⟩ : Peak).peakIndex).current := by
  refine c10_peaks_faithful uni11 ⟨5, 6, 5, none⟩ (List.mem_append_left _ ?_)
  have hcand : P0.candidate uni11 5 = some ⟨5, 6, 5, none⟩ := by
    rw [P0.candidate, if_pos]
    · rw [show (atS uni11 5).voltage = 5 from by decide, show cur uni11 5 = 6 from by decide]
    · refine ⟨?_, ?_, ?_⟩
      · intro j hj
        rw [P0.windowSize, List.mem_range] at hj
        interval_cases j <;> decide
      · intro j hj
        rw [P0.windowSize, List.mem_range] at hj
        interval_cases j <;> decide
      · rw [show maxCurrent uni11 = 6 from by decide, show cur uni11 5 = 6 from by decide]
        norm_num
  rw [P0.findPeaks]
  refine List.mem_filterMap.mpr ⟨5, ?_, hcand⟩
  rw [show uni11.length - 2 * P0.windowSize = 1 from by decide]
  decide

/-! ## Claim C9 -/

theorem pairwise_peakIndex_filterMap (f : ℕ → Option Peak)
    (hf : ∀ i p, f i = some p → p.peakIndex = i) :
    ∀ l : List ℕ, l.Pairwise (· < ·) →
      ((l.filterMap f).map Peak.peakIndex).Pairwise (· < ·) := by
  intro l hl
  induction l with
  | nil => simp
  | cons a l ih =>
    obtain ⟨ha, hl'⟩ := List.pairwise_cons.mp hl
    rw [List.filterMap_cons]
    cases hfa : f a with
    | none => exact ih hl'
    | some p =>
      rw [List.map_cons]
      refine List.pairwise_cons.mpr ⟨?_, ih hl'⟩
      intro q hq
      obtain ⟨p', hp'mem, rfl⟩ := List.mem_map.mp hq
      obtain ⟨j, hjl, hfj⟩ := List.mem_filterMap.mp hp'mem
      rw [hf a p hfa, hf j p' hfj]
      exact ha j hjl

theorem p0_candidate_index (data : List Sample) (i : ℕ) (p : Peak)
    (h : P0.candidate data i = some p) : p.peakIndex = i := by
  rw [P0.candidate] at h
  split at h
  · cases h; rfl
  · exact absurd h (by simp)

theorem sj_primary_candidate_index (data : List Sample) (i : ℕ) (p : Peak)
    (h : SJ.primaryCandidate data i = some p) : p.peakIndex = i := by
  rw [SJ.primaryCandidate] at h
  split at h
  · cases h; rfl
  · exact absurd h (by simp)

theorem sj_backup_candidate_index (data : List Sample) (i : ℕ) (p : Peak)
    (h : SJ.backupCandidate data i = some p) : p.peakIndex = i := by
  rw [SJ.backupCandidate] at h
  split at h
  · cases h; rfl
  · exact absurd h (by simp)

/-- Claim C9, amended: the two sliding-window detectors return peaks
with strictly increasing `peakIndex` (so rank = returned position and no
source index repeats); the Gaussian-derivative detector does not share
this property — its hill-climbing refinement can send two distinct
zero-crossings to one and the same source index. -/
theorem c9_window_strictly_increasing (data : List Sample) :
    ((P0.findPeaks data).map Peak.peakIndex).Pairwise (· < ·) ∧
      ((SJ.findPeaks data).map Peak.peakIndex).Pairwise (· < ·) := by
  constructor
  · rw [P0.findPeaks]
    exact pairwise_peakIndex_filterMap _ (p0_candidate_index data) _
      (List.pairwise_lt_range' _ _)
  · have hb : ((SJ.backupPass data).map Peak.peakIndex).Pairwise (· < ·) := by
      rw [SJ.backupPass]
      exact pairwise_peakIndex_filterMap _ (sj_backup_candidate_index data) _
        (List.pairwise_lt_range' _ _)
    simp only [SJ.findPeaks]
    split
    · rw [SJ.primaryPass]
      exact pairwise_peakIndex_filterMap _ (sj_primary_candidate_index data) _
        (List.pairwise_lt_range' _ _)
    · split
      · exact hb
      · rw [List.map_take]
        exact List.Pairwise.sublist (List.take_sublist 2 _) hb

theorem radC9 : (⌈(3 : ℝ) * 2⌉₊ : ℕ) = 6 := by norm_num

theorem smC9_len : (P1.gaussianSmooth exC9 2).length = 19 := by
  simp [P1.gaussianSmooth, exC9]

theorem derivC9_getD (k : ℕ) (hk : k < 17) :
    (P1.calculateDerivative (P1.gaussianSmooth exC9 2)).getD k (0, 0) =
      (((P1.gaussianSmooth exC9 2).getD (k + 1) (0, 0)).1,
        (((P1.gaussianSmooth exC9 2).getD (k + 2) (0, 0)).2 -
            ((P1.gaussianSmooth exC9 2).getD k (0, 0)).2) /
          ((((P1.gaussianSmooth exC9 2).getD (k + 2) (0, 0)).1 : ℚ) -
            (((P1.gaussianSmooth exC9 2).getD k (0, 0)).1 : ℚ) : ℝ)) := by
  rw [P1.calculateDerivative, smC9_len]
  rw [show (19 : ℕ) - 2 = 17 from rfl]
  rw [List.getD_eq_getElem _ _ (by simpa using hk)]
  simp [List.getElem_map, List.getElem_range]

theorem smC9_getD (i : ℕ) (hi : i < 19) :
    (P1.gaussianSmooth exC9 2).getD i (0, 0) =
      ((atS exC9 i).voltage,
        (((List.range 13).map fun (m : ℕ) =>
          if 0 ≤ (i : ℤ) + (m : ℤ) - 6 ∧ (i : ℤ) + (m : ℤ) - 6 < 19 then
            (cur exC9 ((i : ℤ) + (m : ℤ) - 6).toNat : ℝ) * (P1.kernel 2 6).getD m 0
          else 0).sum)) := by
  simp only [P1.gaussianSmooth, radC9]
  rw [show exC9.length = 19 from rfl]
  rw [List.getD_eq_getElem _ _ (by simpa using hi)]
  simp only [List.getElem_map, List.getElem_range]
  norm_num

theorem kernelC9_pos (m : ℕ) (hm : m < 13) : 0 < (P1.kernel 2 6).getD m 0 := by
  simp only [P1.kernel]
  rw [List.getD_eq_getElem _ _ (by simpa using hm)]
  simp only [List.getElem_map, List.getElem_range]
  refine div_pos (Real.exp_pos _) ?_
  rw [show (2 * 6 + 1 : ℕ) = 13 from rfl,
    show List.range 13 = [0, 1, 2, 3, 4, 5, 6, 7, 8, 9, 10, 11, 12] from rfl]
  simp only [List.map_cons, List.map_nil, List.sum_cons, List.sum_nil]
  positivity

theorem derivC9_d0_pos :
    0 < ((P1.calculateDerivative (P1.gaussianSmooth exC9 2)).getD 0 (0, 0)).2 := by
  rw [derivC9_getD 0 (by norm_num)]
  rw [smC9_getD 0 (by norm_num), smC9_getD 2 (by norm_num)]
  dsimp only
  rw [show (atS exC9 2).voltage = 1 from by decide,
    show (atS exC9 0).voltage = 0 from by decide]
  rw [show List.range 13 = [0, 1, 2, 3, 4, 5, 6, 7, 8, 9, 10, 11, 12] from rfl]
  simp only [List.map_cons, List.map_nil, List.sum_cons, List.sum_nil]
  norm_num [show Int.toNat 0 = 0 from rfl, show Int.toNat 1 = 1 from rfl,
    show Int.toNat 2 = 2 from rfl, show Int.toNat 3 = 3 from rfl,
    show Int.toNat 4 = 4 from rfl, show Int.toNat 5 = 5 from rfl,
    show Int.toNat 6 = 6 from rfl, show Int.toNat 7 = 7 from rfl,
    show Int.toNat 8 = 8 from rfl, show Int.toNat 9 = 9 from rfl,
    show Int.toNat 10 = 10 from rfl, show Int.toNat 11 = 11 from rfl,
    show cur exC9 0 = 1 from by decide, show cur exC9 1 = 2 from by decide,
    show cur exC9 2 = 3 from by decide, show cur exC9 3 = 4 from by decide,
    show cur exC9 4 = 40 from by decide, show cur exC9 5 = 100 from by decide,
    show cur exC9 6 = 100 from by decide, show cur exC9 7 = 100 from by decide,
    show cur exC9 8 = 100 from by decide, show cur exC9 9 = 100 from by decide,
    show cur exC9 10 = 100 from by decide, show cur exC9 11 = 100 from by decide]
  linarith [show (0:ℝ) < ((P1.kernel 2 6)[0]?).getD 0 from kernelC9_pos 0 (by norm_num),
    show (0:ℝ) < ((P1.kernel 2 6)[1]?).getD 0 from kernelC9_pos 1 (by norm_num),
    show (0:ℝ) < ((P1.kernel 2 6)[2]?).getD 0 from kernelC9_pos 2 (by norm_num),
    show (0:ℝ) < ((P1.kernel 2 6)[3]?).getD 0 from kernelC9_pos 3 (by norm_num),
    show (0:ℝ) < ((P1.kernel 2 6)[4]?).getD 0 from kernelC9_pos 4 (by norm_num),
    show (0:ℝ) < ((P1.kernel 2 6)[5]?).getD 0 from kernelC9_pos 5 (by norm_num),
    show (0:ℝ) < ((P1.kernel 2 6)[6]?).getD 0 from kernelC9_pos 6 (by norm_num),
    show (0:ℝ) < ((P1.kernel 2 6)[7]?).getD 0 from kernelC9_pos 7 (by norm_num),
    show (0:ℝ) < ((P1.kernel 2 6)[8]?).getD 0 from kernelC9_pos 8 (by norm_num),
    show (0:ℝ) < ((P1.kernel 2 6)[9]?).getD 0 from kernelC9_pos 9 (by norm_num),
    show (0:ℝ) < ((P1.kernel 2 6)[10]?).getD 0 from kernelC9_pos 10 (by norm_num),
    show (0:ℝ) < ((P1.kernel 2 6)[11]?).getD 0 from kernelC9_pos 11 (by norm_num),
    show (0:ℝ) < ((P1.kernel 2 6)[12]?).getD 0 from kernelC9_pos 12 (by norm_num)]

theorem derivC9_d1_neg :
    ((P1.calculateDerivative (P1.gaussianSmooth exC9 2)).getD 1 (0, 0)).2 < 0 := by
  rw [derivC9_getD 1 (by norm_num)]
  rw [smC9_getD 1 (by norm_num), smC9_getD 3 (by norm_num)]
  dsimp only
  rw [show (atS exC9 3).voltage = 9 from by decide,
    show (atS exC9 1).voltage = 10 from by decide]
  apply div_neg_of_pos_of_neg
  · rw [show List.range 13 = [0, 1, 2, 3, 4, 5, 6, 7, 8, 9, 10, 11, 12] from rfl]
    simp only [List.map_cons, List.map_nil, List.sum_cons, List.sum_nil]
    norm_num [show Int.toNat 0 = 0 from rfl, show Int.toNat 1 = 1 from rfl,
    show Int.toNat 2 = 2 from rfl, show Int.toNat 3 = 3 from rfl,
    show Int.toNat 4 = 4 from rfl, show Int.toNat 5 = 5 from rfl,
    show Int.toNat 6 = 6 from rfl, show Int.toNat 7 = 7 from rfl,
    show Int.toNat 8 = 8 from rfl, show Int.toNat 9 = 9 from rfl,
    show Int.toNat 10 = 10 from rfl, show Int.toNat 11 = 11 from rfl,
      show cur exC9 0 = 1 from by decide, show cur exC9 1 = 2 from by decide,
    show cur exC9 2 = 3 from by decide, show cur exC9 3 = 4 from by decide,
    show cur exC9 4 = 40 from by decide, show cur exC9 5 = 100 from by decide,
    show cur exC9 6 = 100 from by decide, show cur exC9 7 = 100 from by decide,
    show cur exC9 8 = 100 from by decide, show cur exC9 9 = 100 from by decide,
    show cur exC9 10 = 100 from by decide, show cur exC9 11 = 100 from by decide]
    linarith [show (0:ℝ) < ((P1.kernel 2 6)[0]?).getD 0 from kernelC9_pos 0 (by norm_num),
    show (0:ℝ) < ((P1.kernel 2 6)[1]?).getD 0 from kernelC9_pos 1 (by norm_num),
    show (0:ℝ) < ((P1.kernel 2 6)[2]?).getD 0 from kernelC9_pos 2 (by norm_num),
    show (0:ℝ) < ((P1.kernel 2 6)[3]?).getD 0 from kernelC9_pos 3 (by norm_num),
    show (0:ℝ) < ((P1.kernel 2 6)[4]?).getD 0 from kernelC9_pos 4 (by norm_num),
    show (0:ℝ) < ((P1.kernel 2 6)[5]?).getD 0 from kernelC9_pos 5 (by norm_num),
    show (0:ℝ) < ((P1.kernel 2 6)[6]?).getD 0 from kernelC9_pos 6 (by norm_num),
    show (0:ℝ) < ((P1.kernel 2 6)[7]?).getD 0 from kernelC9_pos 7 (by norm_num),
    show (0:ℝ) < ((P1.kernel 2 6)[8]?).getD 0 from kernelC9_pos 8 (by norm_num),
    show (0:ℝ) < ((P1.kernel 2 6)[9]?).getD 0 from kernelC9_pos 9 (by norm_num),
    show (0:ℝ) < ((P1.kernel 2 6)[10]?).getD 0 from kernelC9_pos 10 (by norm_num),
    show (0:ℝ) < ((P1.kernel 2 6)[11]?).getD 0 from kernelC9_pos 11 (by norm_num),
    show (0:ℝ) < ((P1.kernel 2 6)[12]?).getD 0 from kernelC9_pos 12 (by norm_num)]
  · norm_num

theorem derivC9_d2_pos :
    0 < ((P1.calculateDerivative (P1.gaussianSmooth exC9 2)).getD 2 (0, 0)).2 := by
  rw [derivC9_getD 2 (by norm_num)]
  rw [smC9_getD 2 (by norm_num), smC9_getD 4 (by norm_num)]
  dsimp only
  rw [show (atS exC9 4).voltage = 2 from by decide,
    show (atS exC9 2).voltage = 1 from by decide]
  rw [show List.range 13 = [0, 1, 2, 3, 4, 5, 6, 7, 8, 9, 10, 11, 12] from rfl]
  simp only [List.map_cons, List.map_nil, List.sum_cons, List.sum_nil]
  norm_num [show Int.toNat 0 = 0 from rfl, show Int.toNat 1 = 1 from rfl,
    show Int.toNat 2 = 2 from rfl, show Int.toNat 3 = 3 from rfl,
    show Int.toNat 4 = 4 from rfl, show Int.toNat 5 = 5 from rfl,
    show Int.toNat 6 = 6 from rfl, show Int.toNat 7 = 7 from rfl,
    show Int.toNat 8 = 8 from rfl, show Int.toNat 9 = 9 from rfl,
    show Int.toNat 10 = 10 from rfl, show Int.toNat 11 = 11 from rfl,
    show cur exC9 0 = 1 from by decide, show cur exC9 1 = 2 from by decide,
    show cur exC9 2 = 3 from by decide, show cur exC9 3 = 4 from by decide,
    show cur exC9 4 = 40 from by decide, show cur exC9 5 = 100 from by decide,
    show cur exC9 6 = 100 from by decide, show cur exC9 7 = 100 from by decide,
    show cur exC9 8 = 100 from by decide, show cur exC9 9 = 100 from by decide,
    show cur exC9 10 = 100 from by decide, show cur exC9 11 = 100 from by decide]
  linarith [show (0:ℝ) < ((P1.kernel 2 6)[0]?).getD 0 from kernelC9_pos 0 (by norm_num),
    show (0:ℝ) < ((P1.kernel 2 6)[1]?).getD 0 from kernelC9_pos 1 (by norm_num),
    show (0:ℝ) < ((P1.kernel 2 6)[2]?).getD 0 from kernelC9_pos 2 (by norm_num),
    show (0:ℝ) < ((P1.kernel 2 6)[3]?).getD 0 from kernelC9_pos 3 (by norm_num),
    show (0:ℝ) < ((P1.kernel 2 6)[4]?).getD 0 from kernelC9_pos 4 (by norm_num),
    show (0:ℝ) < ((P1.kernel 2 6)[5]?).getD 0 from kernelC9_pos 5 (by norm_num),
    show (0:ℝ) < ((P1.kernel 2 6)[6]?).getD 0 from kernelC9_pos 6 (by norm_num),
    show (0:ℝ) < ((P1.kernel 2 6)[7]?).getD 0 from kernelC9_pos 7 (by norm_num),
    show (0:ℝ) < ((P1.kernel 2 6)[8]?).getD 0 from kernelC9_pos 8 (by norm_num),
    show (0:ℝ) < ((P1.kernel 2 6)[9]?).getD 0 from kernelC9_pos 9 (by norm_num),
    show (0:ℝ) < ((P1.kernel 2 6)[10]?).getD 0 from kernelC9_pos 10 (by norm_num),
    show (0:ℝ) < ((P1.kernel 2 6)[11]?).getD 0 from kernelC9_pos 11 (by norm_num),
    show (0:ℝ) < ((P1.kernel 2 6)[12]?).getD 0 from kernelC9_pos 12 (by norm_num)]

theorem derivC9_d3_neg :
    ((P1.calculateDerivative (P1.gaussianSmooth exC9 2)).getD 3 (0, 0)).2 < 0 := by
  rw [derivC9_getD 3 (by norm_num)]
  rw [smC9_getD 3 (by norm_num), smC9_getD 5 (by norm_num)]
  dsimp only
  rw [show (atS exC9 5).voltage = 8 from by decide,
    show (atS exC9 3).voltage = 9 from by decide]
  apply div_neg_of_pos_of_neg
  · rw [show List.range 13 = [0, 1, 2, 3, 4, 5, 6, 7, 8, 9, 10, 11, 12] from rfl]
    simp only [List.map_cons, List.map_nil, List.sum_cons, List.sum_nil]
    norm_num [show Int.toNat 0 = 0 from rfl, show Int.toNat 1 = 1 from rfl,
    show Int.toNat 2 = 2 from rfl, show Int.toNat 3 = 3 from rfl,
    show Int.toNat 4 = 4 from rfl, show Int.toNat 5 = 5 from rfl,
    show Int.toNat 6 = 6 from rfl, show Int.toNat 7 = 7 from rfl,
    show Int.toNat 8 = 8 from rfl, show Int.toNat 9 = 9 from rfl,
    show Int.toNat 10 = 10 from rfl, show Int.toNat 11 = 11 from rfl,
      show cur exC9 0 = 1 from by decide, show cur exC9 1 = 2 from by decide,
    show cur exC9 2 = 3 from by decide, show cur exC9 3 = 4 from by decide,
    show cur exC9 4 = 40 from by decide, show cur exC9 5 = 100 from by decide,
    show cur exC9 6 = 100 from by decide, show cur exC9 7 = 100 from by decide,
    show cur exC9 8 = 100 from by decide, show cur exC9 9 = 100 from by decide,
    show cur exC9 10 = 100 from by decide, show cur exC9 11 = 100 from by decide]
    linarith [show (0:ℝ) < ((P1.kernel 2 6)[0]?).getD 0 from kernelC9_pos 0 (by norm_num),
    show (0:ℝ) < ((P1.kernel 2 6)[1]?).getD 0 from kernelC9_pos 1 (by norm_num),
    show (0:ℝ) < ((P1.kernel 2 6)[2]?).getD 0 from kernelC9_pos 2 (by norm_num),
    show (0:ℝ) < ((P1.kernel 2 6)[3]?).getD 0 from kernelC9_pos 3 (by norm_num),
    show (0:ℝ) < ((P1.kernel 2 6)[4]?).getD 0 from kernelC9_pos 4 (by norm_num),
    show (0:ℝ) < ((P1.kernel 2 6)[5]?).getD 0 from kernelC9_pos 5 (by norm_num),
    show (0:ℝ) < ((P1.kernel 2 6)[6]?).getD 0 from kernelC9_pos 6 (by norm_num),
    show (0:ℝ) < ((P1.kernel 2 6)[7]?).getD 0 from kernelC9_pos 7 (by norm_num),
    show (0:ℝ) < ((P1.kernel 2 6)[8]?).getD 0 from kernelC9_pos 8 (by norm_num),
    show (0:ℝ) < ((P1.kernel 2 6)[9]?).getD 0 from kernelC9_pos 9 (by norm_num),
    show (0:ℝ) < ((P1.kernel 2 6)[10]?).getD 0 from kernelC9_pos 10 (by norm_num),
    show (0:ℝ) < ((P1.kernel 2 6)[11]?).getD 0 from kernelC9_pos 11 (by norm_num),
    show (0:ℝ) < ((P1.kernel 2 6)[12]?).getD 0 from kernelC9_pos 12 (by norm_num)]
  · norm_num


theorem refineC9_1 : P1.refine exC9 1 = some exC9Peak := by
  simp only [P1.refine]
  rw [show P1.climbLeft exC9 (1 + 1) = 2 from by decide]
  rw [show P1.walkRight exC9 2 (1 + 1 + 1) = 5 from by decide]
  rw [show cur exC9 5 = 100 from by decide]
  rw [show maxCurrent exC9 = 100 from by decide]
  rw [if_pos (by norm_num)]
  rw [show (1 / 2 : ℚ) * 100 = 50 from by norm_num]
  rw [show P1.widthLeft exC9 50 5 = 4 from by decide]
  rw [show P1.widthRight exC9 50 5 = 18 from by decide]
  rw [if_pos (by norm_num)]
  rw [show (atS exC9 5).voltage = 8 from by decide]
  rfl

theorem refineC9_3 : P1.refine exC9 3 = some exC9Peak := by
  simp only [P1.refine]
  rw [show P1.climbLeft exC9 (3 + 1) = 4 from by decide]
  rw [show P1.walkRight exC9 4 (3 + 1 + 1) = 5 from by decide]
  rw [show cur exC9 5 = 100 from by decide]
  rw [show maxCurrent exC9 = 100 from by decide]
  rw [if_pos (by norm_num)]
  rw [show (1 / 2 : ℚ) * 100 = 50 from by norm_num]
  rw [show P1.widthLeft exC9 50 5 = 4 from by decide]
  rw [show P1.widthRight exC9 50 5 = 18 from by decide]
  rw [if_pos (by norm_num)]
  rw [show (atS exC9 5).voltage = 8 from by decide]
  rfl


theorem ccC9_1 :
    P1.crossingCandidate exC9 (P1.calculateDerivative (P1.gaussianSmooth exC9 2)) 1 =
      some exC9Peak := by
  rw [P1.crossingCandidate, show (1 : ℕ) - 1 = 0 from rfl,
    if_pos ⟨derivC9_d0_pos, le_of_lt derivC9_d1_neg⟩]
  exact refineC9_1

theorem ccC9_2 :
    P1.crossingCandidate exC9 (P1.calculateDerivative (P1.gaussianSmooth exC9 2)) 2 =
      none := by
  rw [P1.crossingCandidate, show (2 : ℕ) - 1 = 1 from rfl,
    if_neg fun h => absurd h.1 (not_lt.mpr (le_of_lt derivC9_d1_neg))]

theorem ccC9_3 :
    P1.crossingCandidate exC9 (P1.calculateDerivative (P1.gaussianSmooth exC9 2)) 3 =
      some exC9Peak := by
  rw [P1.crossingCandidate, show (3 : ℕ) - 1 = 2 from rfl,
    if_pos ⟨derivC9_d2_pos, le_of_lt derivC9_d3_neg⟩]
  exact refineC9_3

/-- Claim C9, counterexample: on `exC9` the Gaussian-derivative detector
refines its first two zero-crossings to the same source index 5, so the
returned `peakIndex` sequence is not strictly increasing. -/
theorem c9_counterexample :
    ¬((P1.findPeaks exC9).map Peak.peakIndex).Pairwise (· < ·) := by
  have hpre : P1.findPeaks exC9 = exC9Peak :: exC9Peak ::
      (List.range' 4 12).filterMap
        (P1.crossingCandidate exC9 (P1.calculateDerivative (P1.gaussianSmooth exC9 2))) := by
    simp only [P1.findPeaks]
    rw [p1_deriv_length exC9]
    rw [show exC9.length - 2 - 2 = 15 from by decide]
    rw [show List.range' 1 15 = [1, 2, 3] ++ List.range' 4 12 from by decide]
    rw [List.filterMap_append]
    simp only [List.filterMap_cons, ccC9_1, ccC9_2, ccC9_3, List.filterMap_nil]
    rfl
  rw [hpre]
  intro hpair
  rw [List.map_cons, List.map_cons] at hpair
  exact lt_irrefl _ ((List.pairwise_cons.mp hpair).1 exC9Peak.peakIndex
    (List.mem_cons_self _ _))

/-! ## Linear fitter: spec refinement (C3), denominator positivity (C7),
exact-fit behaviour (C8) and uncertainty (C4) -/

theorem peakV_eq_get (peaks : List Peak) (i : ℕ) (h : i < peaks.length) :
    peakV peaks i = (peaks.get ⟨i, h⟩).voltage := by
  simp [peakV, List.getD, List.getElem?_eq_getElem h, List.get_eq_getElem]

theorem specSumY_eq (peaks : List Peak) :
    (∑ i in Finset.range peaks.length, peakV peaks i) = specSumY peaks := by
  rw [← Fin.sum_univ_eq_sum_range (fun i => peakV peaks i) peaks.length]
  exact Finset.sum_congr rfl fun i _ => by rw [peakV_eq_get peaks i.1 i.isLt]

theorem specSumXY_eq (peaks : List Peak) :
    (∑ i in Finset.range peaks.length, ((i : ℚ) + 1) * peakV peaks i) = specSumXY peaks := by
  rw [← Fin.sum_univ_eq_sum_range (fun i => ((i : ℚ) + 1) * peakV peaks i) peaks.length]
  exact Finset.sum_congr rfl fun i _ => by rw [peakV_eq_get peaks i.1 i.isLt]

theorem sum_sq_shift_eq (peaks : List Peak) (X : ℚ) :
    (∑ i in Finset.range peaks.length, (peakV peaks i - X) ^ 2) =
      ∑ i : Fin peaks.length, ((peaks.get i).voltage - X) ^ 2 := by
  rw [← Fin.sum_univ_eq_sum_range (fun i => (peakV peaks i - X) ^ 2) peaks.length]
  exact Finset.sum_congr rfl fun i _ => by rw [peakV_eq_get peaks i.1 i.isLt]

theorem sum_res_shift_eq (peaks : List Peak) (a b : ℚ) :
    (∑ i in Finset.range peaks.length, (peakV peaks i - (a * ((i : ℚ) + 1) + b)) ^ 2) =
      ∑ i : Fin peaks.length,
        ((peaks.get i).voltage - (a * (((i : ℕ) : ℚ) + 1) + b)) ^ 2 := by
  rw [← Fin.sum_univ_eq_sum_range (fun i => (peakV peaks i - (a * ((i : ℚ) + 1) + b)) ^ 2)
    peaks.length]
  exact Finset.sum_congr rfl fun i _ => by rw [peakV_eq_get peaks i.1 i.isLt]

/-- `linearFit` computes exactly the spec's closed formulas. -/
theorem linearFit_ok (peaks : List Peak) (h2 : 2 ≤ peaks.length) :
    linearFit peaks = .ok ⟨specSlope peaks, specIntercept peaks, specRSquared peaks⟩ := by
  simp only [linearFit]
  rw [if_neg (not_lt.mpr h2)]
  rw [specSumY_eq, specSumXY_eq, sum_sq_shift_eq, sum_res_shift_eq]
  rfl

theorem sum_range_rank (n : ℕ) :
    (∑ i in Finset.range n, ((i : ℚ) + 1)) = n * (n + 1) / 2 := by
  induction n with
  | zero => norm_num
  | succ n ih => rw [Finset.sum_range_succ, ih]; push_cast; ring

theorem sum_range_rank_sq (n : ℕ) :
    (∑ i in Finset.range n, ((i : ℚ) + 1) * ((i : ℚ) + 1)) =
      n * (n + 1) * (2 * n + 1) / 6 := by
  induction n with
  | zero => norm_num
  | succ n ih => rw [Finset.sum_range_succ, ih]; push_cast; ring

/-- Gauss's closed form for the fitter's denominator. -/
theorem fitDenom_closed (peaks : List Peak) :
    fitDenom peaks = (peaks.length : ℚ) ^ 2 * ((peaks.length : ℚ) ^ 2 - 1) / 12 := by
  simp only [fitDenom]
  rw [sum_range_rank, sum_range_rank_sq]
  ring

theorem fitDenom_pos (peaks : List Peak) (h2 : 2 ≤ peaks.length) :
    0 < fitDenom peaks := by
  rw [fitDenom_closed]
  have h : (2 : ℚ) ≤ (peaks.length : ℚ) := by exact_mod_cast h2
  have h4 : (4 : ℚ) ≤ (peaks.length : ℚ) ^ 2 := by nlinarith
  refine div_pos ?_ (by norm_num)
  nlinarith [h4, sq_nonneg ((peaks.length : ℚ))]

/-- Claim C3: `linearFit` fails with the insufficient-peaks error exactly
when `n < 2`, and for `n ≥ 2` returns the spec's least-squares slope
`(n·Σ(rank·voltage) − Σrank·Σvoltage)/(n·Σrank² − (Σrank)²)`, intercept
`(Σvoltage − slope·Σrank)/n` and `R² = 1 − SSres/SStot` (the non-finite
value at `SStot = 0` modelled as `none`). -/
theorem c3_linearFit (peaks : List Peak) :
    (linearFit peaks = .error .insufficientPeaks ↔ peaks.length < 2) ∧
    (2 ≤ peaks.length →
      linearFit peaks =
        .ok ⟨specSlope peaks, specIntercept peaks, specRSquared peaks⟩) := by
  constructor
  · constructor
    · intro h
      by_contra hn
      rw [linearFit_ok peaks (not_lt.mp hn)] at h
      exact Except.noConfusion h
    · intro h
      simp only [linearFit]
      rw [if_pos h]
  · exact linearFit_ok peaks

theorem c3_witness :
    2 ≤ exPeaks2.length ∧
      linearFit exPeaks2 =
        .ok ⟨specSlope exPeaks2, specIntercept exPeaks2, specRSquared exPeaks2⟩ :=
  ⟨by decide, (c3_linearFit exPeaks2).2 (by decide)⟩

/-- Claim C7: under the `n ≥ 2` precondition the fitter's slope
denominator `n·Σrank² − (Σrank)²` is strictly positive, so the slope
division in `linearFit` never divides by zero. -/
theorem c7_denominator_pos (peaks : List Peak) (h2 : 2 ≤ peaks.length) :
    0 < fitDenom peaks :=
  fitDenom_pos peaks h2

theorem c7_witness : 2 ≤ exPeaks2.length ∧ 0 < fitDenom exPeaks2 :=
  ⟨by decide, c7_denominator_pos exPeaks2 (by decide)⟩

/-- Claim C8, counterexample: the constant peak list `cexPeaks8` has
voltages exactly `0 + 0·rank`, yet `linearFit` does not report `R² = 1`
(with `b = 0` the total sum of squares vanishes and the reference value
is non-finite, modelled `none`). -/
theorem c8_counterexample :
    (cexPeaks8.getD 0 dfltPeak).voltage = 0 + 0 * ((0 : ℚ) + 1) ∧
    (cexPeaks8.getD 1 dfltPeak).voltage = 0 + 0 * ((1 : ℚ) + 1) ∧
    2 ≤ cexPeaks8.length ∧
    (linearFit cexPeaks8).map FitResult.rSquared ≠ .ok (some 1) := by
  refine ⟨by norm_num [cexPeaks8, List.getD_cons_zero, List.getD_cons_succ],
    by norm_num [cexPeaks8, List.getD_cons_zero, List.getD_cons_succ], by decide, ?_⟩
  have hv0 : ∀ i : Fin cexPeaks8.length, (cexPeaks8.get i).voltage = 0 := by
    intro i
    fin_cases i <;> rfl
  have hy : specSumY cexPeaks8 = 0 := by
    simp only [specSumY]
    exact Finset.sum_eq_zero fun i _ => hv0 i
  have hmean : specMeanY cexPeaks8 = 0 := by
    simp only [specMeanY]
    rw [hy, zero_div]
  have htot : specSSTot cexPeaks8 = 0 := by
    simp only [specSSTot]
    apply Finset.sum_eq_zero
    intro i _
    rw [hv0 i, hmean]
    norm_num
  have hnone : specRSquared cexPeaks8 = none := by
    simp only [specRSquared]
    rw [if_pos htot]
  rw [linearFit_ok cexPeaks8 (by decide)]
  simp only [Except.map, hnone]
  intro h
  exact Option.noConfusion (Except.ok.inj h)

/-- Claim C8 (amended): if the peak voltages are exactly `a + b·rank`
then `linearFit` returns slope `b` and intercept `a`; `R² = 1` holds
whenever `b ≠ 0`, while at `b = 0` the reference `R²` is the non-finite
value (modelled `none`); and for `n ≥ 3` `calculateUncertainty` returns
slope error `0` with the confidence interval collapsed to `[b, b]`. -/
theorem c8_exact_fit (a b : ℚ) (peaks : List Peak) (data : List Sample)
    (h2 : 2 ≤ peaks.length)
    (hv : ∀ i : Fin peaks.length, (peaks.get i).voltage = a + b * (((i : ℕ) : ℚ) + 1)) :
    linearFit peaks = .ok ⟨b, a, if b = 0 then none else some 1⟩ ∧
      (3 ≤ peaks.length →
        calculateUncertainty data peaks ⟨b, a, if b = 0 then none else some 1⟩ =
          some ⟨0, 0, (b : ℝ), (b : ℝ)⟩) := by
  have hn0 : ((peaks.length : ℚ)) ≠ 0 := Nat.cast_ne_zero.mpr (by omega)
  have hY : specSumY peaks = (peaks.length : ℚ) * a + b * specSumX peaks.length := by
    simp only [specSumY]
    rw [show (∑ i : Fin peaks.length, (peaks.get i).voltage) =
        ∑ i : Fin peaks.length, (a + b * (((i : ℕ) : ℚ) + 1)) from
      Finset.sum_congr rfl fun i _ => hv i]
    rw [Fin.sum_univ_eq_sum_range (fun i => a + b * ((i : ℚ) + 1)) peaks.length]
    rw [Finset.sum_add_distrib, Finset.sum_const, Finset.card_range, ← Finset.mul_sum]
    rw [nsmul_eq_mul]
    simp only [specSumX]
  have hXY : specSumXY peaks = a * specSumX peaks.length + b * specSumX2 peaks.length := by
    simp only [specSumXY]
    rw [show (∑ i : Fin peaks.length, (((i : ℕ) : ℚ) + 1) * (peaks.get i).voltage) =
        ∑ i : Fin peaks.length,
          (a * (((i : ℕ) : ℚ) + 1) + b * ((((i : ℕ) : ℚ) + 1) * ((((i : ℕ) : ℚ)) + 1))) from
      Finset.sum_congr rfl fun i _ => by rw [hv i]; ring]
    rw [Fin.sum_univ_eq_sum_range
      (fun i => a * ((i : ℚ) + 1) + b * (((i : ℚ) + 1) * ((i : ℚ) + 1))) peaks.length]
    rw [Finset.sum_add_distrib, ← Finset.mul_sum, ← Finset.mul_sum]
    simp only [specSumX, specSumX2]
  have hD : ((peaks.length : ℚ) * specSumX2 peaks.length -
      specSumX peaks.length * specSumX peaks.length) ≠ 0 :=
    ne_of_gt (fitDenom_pos peaks h2)
  have hslope : specSlope peaks = b := by
    simp only [specSlope]
    rw [hXY, hY, div_eq_iff hD]
    ring
  have hIntercept : specIntercept peaks = a := by
    simp only [specIntercept]
    rw [hslope, hY, div_eq_iff hn0]
    ring
  have hTot0 : b = 0 → specSSTot peaks = 0 := by
    intro hb
    have hm : specMeanY peaks = a := by
      simp only [specMeanY]
      rw [hY, hb, zero_mul, add_zero, mul_comm, mul_div_assoc, div_self hn0, mul_one]
    simp only [specSSTot]
    apply Finset.sum_eq_zero
    intro i _
    rw [hv i, hm, hb]
    ring
  have hTotPos : b ≠ 0 → ¬specSSTot peaks = 0 := by
    intro hb htot
    simp only [specSSTot] at htot
    have hall := (Finset.sum_eq_zero_iff_of_nonneg fun j _ => sq_nonneg _).mp htot
    have h0 : (0 : ℕ) < peaks.length := by omega
    have h1 : (1 : ℕ) < peaks.length := by omega
    have e0 := hall ⟨0, h0⟩ (Finset.mem_univ _)
    have e1 := hall ⟨1, h1⟩ (Finset.mem_univ _)
    rw [pow_eq_zero_iff (by norm_num : (2 : ℕ) ≠ 0), sub_eq_zero, hv ⟨0, h0⟩] at e0
    rw [pow_eq_zero_iff (by norm_num : (2 : ℕ) ≠ 0), sub_eq_zero, hv ⟨1, h1⟩] at e1
    have he := e0.trans e1.symm
    dsimp only at he
    apply hb
    have hcast0 : (((0 : ℕ) : ℚ)) = 0 := by norm_num
    have hcast1 : (((1 : ℕ) : ℚ)) = 1 := by norm_num
    rw [hcast0, hcast1] at he
    linarith
  have hRes0 : specSSRes peaks = 0 := by
    simp only [specSSRes]
    apply Finset.sum_eq_zero
    intro i _
    rw [hv i, hslope, hIntercept]
    ring
  have hrsq : specRSquared peaks = if b = 0 then none else some 1 := by
    by_cases hb : b = 0
    · rw [if_pos hb]
      simp only [specRSquared]
      rw [if_pos (hTot0 hb)]
    · rw [if_neg hb]
      simp only [specRSquared]
      rw [if_neg (hTotPos hb), hRes0, zero_div, sub_zero]
  constructor
  · rw [linearFit_ok peaks h2, hslope, hIntercept, hrsq]
  · intro h3
    simp only [calculateUncertainty]
    rw [if_neg (by omega : ¬peaks.length < 2)]
    have hres : (∑ i in Finset.range peaks.length,
        (peakV peaks i - (b * ((i : ℚ) + 1) + a)) ^ 2) = 0 := by
      rw [sum_res_shift_eq]
      apply Finset.sum_eq_zero
      intro i _
      rw [hv i]
      ring
    rw [hres]
    simp only [Rat.cast_zero, zero_div, Real.sqrt_zero, zero_mul, mul_zero, sub_zero, add_zero]

theorem c8_witness :
    linearFit exPeaks3 = .ok ⟨2, 1, some 1⟩ ∧
      calculateUncertainty [] exPeaks3 ⟨2, 1, some 1⟩ =
        some ⟨0, 0, ((2 : ℚ) : ℝ), ((2 : ℚ) : ℝ)⟩ := by
  have h := c8_exact_fit 1 2 exPeaks3 [] (by decide)
    (by intro i; fin_cases i <;> norm_num [exPeaks3])
  rw [if_neg (by norm_num : ¬(2 : ℚ) = 0)] at h
  exact ⟨h.1, h.2 (by decide)⟩

/-- Claim C4: `calculateUncertainty` returns the explicit unavailable
value `none` exactly when `n < 2`; for `n ≥ 2` it returns
`slopeError = s/sqrt(Sxx)` with `s = sqrt(Σresidual²/(n−2))` and
`Sxx = Σrank² − (Σrank)²/n`, and a confidence interval
`[slope − 2.776·slopeError, slope + 2.776·slopeError]` symmetric about
the fitted slope with the fixed critical value `tValue = 2.776`. -/
theorem c4_uncertainty (data : List Sample) (peaks : List Peak) (fit : FitResult) :
    (calculateUncertainty data peaks fit = none ↔ peaks.length < 2) ∧
    (2 ≤ peaks.length →
      calculateUncertainty data peaks fit = some
        ⟨specSlopeError peaks fit, specInterceptError peaks fit,
          (fit.slope : ℝ) - (tValue : ℝ) * specSlopeError peaks fit,
          (fit.slope : ℝ) + (tValue : ℝ) * specSlopeError peaks fit⟩ ∧
      ((fit.slope : ℝ) - (tValue : ℝ) * specSlopeError peaks fit) +
          ((fit.slope : ℝ) + (tValue : ℝ) * specSlopeError peaks fit) =
        2 * (fit.slope : ℝ)) := by
  constructor
  · constructor
    · intro h
      by_contra hn
      simp only [calculateUncertainty] at h
      rw [if_neg hn] at h
      exact Option.noConfusion h
    · intro h
      simp only [calculateUncertainty]
      rw [if_pos h]
  · intro h2
    constructor
    · simp only [calculateUncertainty]
      rw [if_neg (not_lt.mpr h2)]
      rw [sum_res_shift_eq]
      rfl
    · ring

theorem c4_witness :
    2 ≤ exPeaks3.length ∧
      calculateUncertainty [] exPeaks3 ⟨2, 1, some 1⟩ = some
        ⟨specSlopeError exPeaks3 ⟨2, 1, some 1⟩, specInterceptError exPeaks3 ⟨2, 1, some 1⟩,
          ((2 : ℚ) : ℝ) - (tValue : ℝ) * specSlopeError exPeaks3 ⟨2, 1, some 1⟩,
          ((2 : ℚ) : ℝ) + (tValue : ℝ) * specSlopeError exPeaks3 ⟨2, 1, some 1⟩⟩ :=
  ⟨by decide, ((c4_uncertainty [] exPeaks3 ⟨2, 1, some 1⟩).2 (by decide)).1⟩

end FranckHertz
